import Mathlib

/-!
Verification of the bt-agent trading-strategy prototyping tool.

This file gives a shallow embedding, in Lean 4, of the pure control and
string-processing logic of the repository:

* `data_fetcher.py` — ticker-symbol normalization and the fetch/cache flow;
* `dsl.py` — the validated strategy schema and its timeframe validator;
* `compiler_btp.py` — the DSL-to-strategy-class string-template compiler;
* `backtest_runner.py` — the two backtest runner wrappers and their
  error handling and metrics dictionaries;
* `autofix.py` — the bounded retry loop around the runner.

Python strings are modelled as `List Char`; the ASCII fragments of
`str.upper`, `str.isalpha`, `str.strip` and `\w`/`\d` character classes are
used (the repository only ever feeds ASCII ticker symbols, Python source
text, and JSON field names through these functions).  External effects
(pandas, yfinance, the backtesting engines, the LLM client, the file
system) are modelled as explicit environment parameters: each call that can
raise is an `Except PyError` value, each call that returns data is a typed
field of the environment record.  Machine floats carried inside metric
dictionaries are an opaque type `α` together with the arithmetic the code
performs on them, since no claim inspects their numeric values.
-/

/-! ## Python string primitives (ASCII model) -/

/-- The whitespace characters removed by Python `str.strip()` (ASCII part). -/
def pyIsSpace (c : Char) : Bool :=
  c = ' ' || c = '\t' || c = '\n' || c = '\x0b' || c = '\x0c' || c = '\r'

/-- Python `str.upper()` on a single character (ASCII part): the
twenty-six lowercase letters map to their uppercase forms, everything else
is unchanged. -/
def pyUpperChar (c : Char) : Char :=
  match c with
  | 'a' => 'A' | 'b' => 'B' | 'c' => 'C' | 'd' => 'D' | 'e' => 'E'
  | 'f' => 'F' | 'g' => 'G' | 'h' => 'H' | 'i' => 'I' | 'j' => 'J'
  | 'k' => 'K' | 'l' => 'L' | 'm' => 'M' | 'n' => 'N' | 'o' => 'O'
  | 'p' => 'P' | 'q' => 'Q' | 'r' => 'R' | 's' => 'S' | 't' => 'T'
  | 'u' => 'U' | 'v' => 'V' | 'w' => 'W' | 'x' => 'X' | 'y' => 'Y'
  | 'z' => 'Z'
  | other => other

/-- Python `str.upper()` on a whole string. -/
def pyUpper (l : List Char) : List Char := l.map pyUpperChar

/-- Python `str.strip()`: drop leading and trailing whitespace. -/
def pyStrip (l : List Char) : List Char :=
  ((l.dropWhile pyIsSpace).reverse.dropWhile pyIsSpace).reverse

/-- Python `str.replace(c, '')` for a single-character pattern: filter the
character out. -/
def removeChar (c : Char) (l : List Char) : List Char :=
  l.filter (fun x => x ≠ c)

/-- Python `str.split(sep)` for a single-character separator: empty pieces
are kept, and splitting the empty string yields `[[]]`, as in Python. -/
def pySplit (sep : Char) : List Char → List (List Char)
  | [] => [[]]
  | c :: rest =>
    if c = sep then [] :: pySplit sep rest
    else
      match pySplit sep rest with
      | [] => [[c]]
      | p :: ps => (c :: p) :: ps

/-- Python `str.startswith(c)` for a one-character pattern. -/
def startsWithChar (c : Char) : List Char → Bool
  | [] => false
  | x :: _ => x = c

/-- Python `s.endswith("=X")`. -/
def endsEqX (l : List Char) : Bool :=
  List.isSuffixOf ['=', 'X'] l

namespace DataFetcher

/-- The crypto base currencies `_normalize_symbol_for_yfinance` uses to
disambiguate six-letter pairs from FX pairs. -/
def crypto_bases : List (List Char) :=
  ["BTC", "ETH", "SOL", "XRP", "ADA", "DOGE", "LTC", "BCH", "BNB", "AVAX",
   "DOT", "SHIB", "MATIC", "LINK", "TRX", "XLM", "XMR", "ETC", "UNI",
   "ATOM", "FIL", "NEAR"].map String.data

/-- The quote currencies that also mark a six-letter pair as crypto. -/
def cryptoQuotes : List (List Char) :=
  ["USDT", "BTC", "ETH"].map String.data

/-- The `upper` intermediate of `_normalize_symbol_for_yfinance`: the
stripped symbol, uppercased, with spaces removed. -/
def upperForm (symbol : List Char) : List Char :=
  removeChar ' ' (pyUpper (pyStrip symbol))

/-- The `merged` intermediate of `_normalize_symbol_for_yfinance`: the
`upper` form with the separators `/`, `_`, `-` removed. -/
def mergedForm (symbol : List Char) : List Char :=
  removeChar '-' (removeChar '_' (removeChar '/' (upperForm symbol)))

/-- One iteration of the final separator loop of
`_normalize_symbol_for_yfinance`: if `sep` occurs in `upper`, split on it,
drop empty pieces, and if exactly two pieces remain with the second piece
2–5 characters long, join them with a hyphen. -/
def sepSplitTry (sep : Char) (upper : List Char) : Option (List Char) :=
  if sep ∈ upper then
    match (pySplit sep upper).filter (fun p => p ≠ []) with
    | [p0, p1] =>
      if 2 ≤ p1.length ∧ p1.length ≤ 5 then some (p0 ++ '-' :: p1) else none
    | _ => none
  else none

/-- `DataFetcher._normalize_symbol_for_yfinance`: map common FX/crypto
symbol spellings to Yahoo Finance tickers. -/
def normalize_symbol_for_yfinance (symbol : List Char) : List Char :=
  if symbol = [] then symbol
  else
    let s := pyStrip symbol
    if s = [] then s
    else if startsWithChar '^' s || endsEqX s then s
    else
      let upper := removeChar ' ' (pyUpper s)
      if ('-' ∈ upper) ∧ (pySplit '-' upper).length = 2 then upper
      else
        let merged := removeChar '-' (removeChar '_' (removeChar '/' upper))
        if merged.length = 6 ∧ merged.all Char.isAlpha then
          let base := merged.take 3
          let quote := merged.drop 3
          if base ∈ crypto_bases ∨ quote ∈ cryptoQuotes then
            base ++ '-' :: quote
          else
            base ++ quote ++ ['=', 'X']
        else
          match sepSplitTry '/' upper with
          | some r => r
          | none =>
            match sepSplitTry '_' upper with
            | some r => r
            | none => upper

/-- String-level wrapper of the symbol normalizer. -/
def normalizeStr (s : String) : String :=
  ⟨normalize_symbol_for_yfinance s.data⟩

end DataFetcher

/-! ## The DSL schema (`dsl.py`)

The pydantic models become Lean structures; the `Literal` types become
inductives, so that declared-type conformance is intrinsic.  Values of
pydantic's `Any` (indicator parameters, constraints) are modelled as the
types the pipeline actually stores there: JSON integers for indicator
parameters (the only values the compiler interpolates), opaque strings for
constraints. -/

/-- The `Literal` type of `Indicator.fn`. -/
inductive IndicatorFn where
  | SMA | EMA | WMA | RSI | MACD | ATR | BBANDS | STOCH | ADX | VWAP
deriving DecidableEq, Repr

/-- `dsl.Indicator`. -/
structure Indicator where
  id : String
  fn : IndicatorFn
  params : List (String × Int) := []
deriving DecidableEq, Repr

/-- `dsl.Signals`: the four optional signal expressions. -/
structure Signals where
  entry_long : Option String := none
  exit_long : Option String := none
  entry_short : Option String := none
  exit_short : Option String := none
deriving DecidableEq, Repr

/-- `dsl.Risk`. -/
structure Risk where
  risk_per_trade_pct : Rat := 1
  stop : Option String := none
  take_profit : Option String := none
deriving DecidableEq, Repr

/-- The `Literal` type of `DSL.framework`. -/
inductive Framework where
  | backtrader
  | backtestingpy
deriving DecidableEq, Repr

/-- `dsl.DSL`: the validated strategy schema. -/
structure DSL where
  name : String
  symbols : List String
  timeframe : String
  indicators : List Indicator := []
  signals : Signals
  risk : Risk := {}
  constraints : List (String × String) := []
  framework : Framework := .backtestingpy
deriving DecidableEq, Repr

/-- The one custom field validator, `DSL.valid_tf`: the assertion
`any(v.endswith(s) for s in ["m", "h", "d"])`. -/
def valid_tf (v : String) : Bool :=
  (["m", "h", "d"].map String.data).any (fun suf => List.isSuffixOf suf v.data)

/-- Constructing a `DSL` instance (pydantic `DSL(...)`): the declared field
types are enforced intrinsically by the Lean argument types, after which
pydantic runs the single custom validator `valid_tf` on `timeframe`; its
failed assertion (message `"Bad timeframe"`) surfaces as a validation
error. -/
def mkDSL (name : String) (symbols : List String) (timeframe : String)
    (indicators : List Indicator) (signals : Signals) (risk : Risk)
    (constraints : List (String × String)) (framework : Framework) :
    Except String DSL :=
  if valid_tf timeframe then
    .ok { name := name, symbols := symbols, timeframe := timeframe,
          indicators := indicators, signals := signals, risk := risk,
          constraints := constraints, framework := framework }
  else
    .error "Bad timeframe"

/-! ## The compiler (`compiler_btp.py`)

`clean_expression` and the nested `conv` helper of `compile_btp` are built
from `re.sub` calls whose patterns are all of a fixed shape (a literal, a
`\w+`/`\d+`/`[^']+` run, or a `\b`-delimited word); each one is embedded as
the character-level scan it denotes.  Python's regex scan is
leftmost, non-overlapping, and greedy; for these patterns greedy matching
of a run is equivalent to taking the maximal run, because backtracking a
run can never be followed by the required delimiter. -/

/-- The `\w` character class (ASCII): letters, digits, underscore. -/
def isWordChar (c : Char) : Bool :=
  c.isAlpha || c.isDigit || c = '_'

/-- `re.sub(r'\s+', ' ', e)`: collapse each maximal whitespace run to one
space. -/
def collapseWs : List Char → List Char
  | [] => []
  | c :: rest =>
    if pyIsSpace c then ' ' :: collapseWs (rest.dropWhile pyIsSpace)
    else c :: collapseWs rest
termination_by l => l.length
decreasing_by
  · simpa using Nat.lt_succ_of_le (List.dropWhile_sublist (l := rest) pyIsSpace).length_le
  · simp

/-- Python `str.replace(pat, repl)` for a nonempty literal pattern:
replace each non-overlapping occurrence, scanning left to right. -/
def replaceSub (pat repl : List Char) : List Char → List Char
  | [] => []
  | c :: rest =>
    if pat ≠ [] ∧ pat.isPrefixOf (c :: rest) then
      repl ++ replaceSub pat repl ((c :: rest).drop pat.length)
    else
      c :: replaceSub pat repl rest
termination_by l => l.length
decreasing_by
  · rename_i h
    have hp : 1 ≤ pat.length := by
      cases pat with
      | nil => exact absurd rfl h.1
      | cons a as => simp
    simp only [List.length_drop, List.length_cons]
    omega
  · simp

/-- `re.sub(r'(\w+)\(', r'self._\1(', e)`: prefix `self._` onto each word
run that is immediately followed by an opening parenthesis.  (For a word
run not followed by `(`, no position inside the run can start a match
either, since every proper suffix of the run is still followed by the same
non-`(` character; so the scan resumes after the run.) -/
def subFnCall : List Char → List Char
  | [] => []
  | c :: rest =>
    if isWordChar c then
      let run := c :: rest.takeWhile isWordChar
      match hafter : rest.dropWhile isWordChar with
      | '(' :: tail => "self._".data ++ run ++ '(' :: subFnCall tail
      | after => run ++ subFnCall after
    else c :: subFnCall rest
termination_by l => l.length
decreasing_by
  · have h1 := (List.dropWhile_sublist (l := rest) isWordChar).length_le
    rw [hafter] at h1
    simp only [List.length_cons] at h1 ⊢
    omega
  · have h1 := (List.dropWhile_sublist (l := rest) isWordChar).length_le
    rw [hafter] at h1
    simp only [List.length_cons]
    omega
  · simp

/-- `re.sub(r'(\w+)\[(\d+)\]', r'self.data.\1[\2]', e)`: rewrite each word
run followed by a bracketed digit run. -/
def subArrIdx : List Char → List Char
  | [] => []
  | c :: rest =>
    if isWordChar c then
      let run := c :: rest.takeWhile isWordChar
      match hafter : rest.dropWhile isWordChar with
      | '[' :: tail =>
        let ds := tail.takeWhile Char.isDigit
        match hds : tail.dropWhile Char.isDigit with
        | ']' :: tail2 =>
          if ds = [] then run ++ '[' :: subArrIdx tail
          else "self.data.".data ++ run ++ '[' :: ds ++ ']' :: subArrIdx tail2
        | _ => run ++ '[' :: subArrIdx tail
      | after => run ++ subArrIdx after
    else c :: subArrIdx rest
termination_by l => l.length
decreasing_by
  · have h1 := (List.dropWhile_sublist (l := rest) isWordChar).length_le
    rw [hafter] at h1
    simp only [List.length_cons] at h1 ⊢
    omega
  · have h1 := (List.dropWhile_sublist (l := rest) isWordChar).length_le
    rw [hafter] at h1
    have h2 := (List.dropWhile_sublist (l := tail) Char.isDigit).length_le
    rw [hds] at h2
    simp only [List.length_cons] at h1 h2 ⊢
    omega
  · have h1 := (List.dropWhile_sublist (l := rest) isWordChar).length_le
    rw [hafter] at h1
    simp only [List.length_cons] at h1 ⊢
    omega
  · have h1 := (List.dropWhile_sublist (l := rest) isWordChar).length_le
    rw [hafter] at h1
    simp only [List.length_cons]
    omega
  · simp

/-- Whether the character after a `\b`-terminated match is a word
boundary. -/
def boundaryAfterOk : List Char → Bool
  | [] => true
  | c :: _ => !(isWordChar c)

/-- The scan of `re.sub(r'\b' + word + r'\b', repl, e)` for a literal
`word`, tracking whether the character before the scan position is a word
character. -/
def wwGo (word repl : List Char) (prevIsWord : Bool) : List Char → List Char
  | [] => []
  | c :: rest =>
    if word ≠ [] ∧ prevIsWord = false ∧ word.isPrefixOf (c :: rest)
        ∧ boundaryAfterOk ((c :: rest).drop word.length) = true then
      repl ++ wwGo word repl
        (match word.reverse with
         | w :: _ => isWordChar w
         | [] => prevIsWord)
        ((c :: rest).drop word.length)
    else
      c :: wwGo word repl (isWordChar c) rest
termination_by l => l.length
decreasing_by
  · rename_i h
    have hp : 1 ≤ word.length := by
      cases word with
      | nil => exact absurd rfl h.1
      | cons a as => simp
    simp only [List.length_drop, List.length_cons]
    omega
  · simp

/-- `re.sub(r'\b' + word + r'\b', repl, e)`: replace each whole-word
occurrence of `word`. -/
def wholeWordReplace (word repl l : List Char) : List Char :=
  wwGo word repl false l

/-- `re.sub` of the pattern `self\.ind\['self\.ind\['([^\x27]+)'\]'\]` with
replacement `self.ind['\1']`: collapse an accidentally nested indicator
reference. -/
def fixNestedInd : List Char → List Char
  | [] => []
  | c :: rest =>
    if "self.ind[\x27self.ind[\x27".data.isPrefixOf (c :: rest) then
      let a := (c :: rest).drop 20
      let x := a.takeWhile (fun ch => ch ≠ '\x27')
      let r1 := a.dropWhile (fun ch => ch ≠ '\x27')
      if x ≠ [] ∧ "\x27]\x27]".data.isPrefixOf r1 then
        "self.ind[\x27".data ++ x ++ "\x27]".data ++ fixNestedInd (r1.drop 4)
      else c :: fixNestedInd rest
    else c :: fixNestedInd rest
termination_by l => l.length
decreasing_by
  · have h1 := (List.dropWhile_sublist (l := (c :: rest).drop 20)
      (fun ch => ch ≠ '\x27')).length_le
    simp only [List.length_drop, List.length_cons, List.length_cons] at h1 ⊢
    omega
  · simp
  · simp

/-- `re.sub` of the pattern `self\.ind\['([^\x27]+)'\]_([^\x27]+)` with
replacement `self.ind['\1_\2']`: pull a trailing `_suffix` inside the
indicator key. -/
def fixIndSuffix : List Char → List Char
  | [] => []
  | c :: rest =>
    if "self.ind[\x27".data.isPrefixOf (c :: rest) then
      let a := (c :: rest).drop 10
      let x := a.takeWhile (fun ch => ch ≠ '\x27')
      let r1 := a.dropWhile (fun ch => ch ≠ '\x27')
      if x ≠ [] ∧ "\x27]_".data.isPrefixOf r1 then
        let afterU := r1.drop 3
        let y := afterU.takeWhile (fun ch => ch ≠ '\x27')
        if y ≠ [] then
          "self.ind[\x27".data ++ x ++ '_' :: y ++ "\x27]".data ++
            fixIndSuffix (afterU.dropWhile (fun ch => ch ≠ '\x27'))
        else c :: fixIndSuffix rest
      else c :: fixIndSuffix rest
    else c :: fixIndSuffix rest
termination_by l => l.length
decreasing_by
  · have h1 := (List.dropWhile_sublist (l := (c :: rest).drop 10)
      (fun ch => ch ≠ '\x27')).length_le
    have h2 := (List.dropWhile_sublist
      (l := ((c :: rest).drop 10 |>.dropWhile (fun ch => ch ≠ '\x27')).drop 3)
      (fun ch => ch ≠ '\x27')).length_le
    simp only [List.length_drop, List.length_cons] at h1 h2 ⊢
    omega
  · simp
  · simp

/-- `re.sub` of the pattern `self\.data\.([^[]+)\[(\d+)\]_([^\x27]+)` with
replacement `self.data.\1[\2]`: drop a trailing `_suffix` after an indexed
data reference. -/
def fixDataSuffix : List Char → List Char
  | [] => []
  | c :: rest =>
    if "self.data.".data.isPrefixOf (c :: rest) then
      let a := (c :: rest).drop 10
      let x := a.takeWhile (fun ch => ch ≠ '[')
      let r1 := a.dropWhile (fun ch => ch ≠ '[')
      let ds := (r1.drop 1).takeWhile Char.isDigit
      let r2 := (r1.drop 1).dropWhile Char.isDigit
      if x ≠ [] ∧ r1 ≠ [] ∧ ds ≠ [] ∧ "]_".data.isPrefixOf r2 then
        let afterU := r2.drop 2
        let y := afterU.takeWhile (fun ch => ch ≠ '\x27')
        if y ≠ [] then
          "self.data.".data ++ x ++ '[' :: ds ++ "]".data ++
            fixDataSuffix (afterU.dropWhile (fun ch => ch ≠ '\x27'))
        else c :: fixDataSuffix rest
      else c :: fixDataSuffix rest
    else c :: fixDataSuffix rest
termination_by l => l.length
decreasing_by
  · have h1 := (List.dropWhile_sublist (l := (c :: rest).drop 10)
      (fun ch => ch ≠ '[')).length_le
    have h2 := (List.dropWhile_sublist
      (l := ((c :: rest).drop 10 |>.dropWhile (fun ch => ch ≠ '[')).drop 1)
      Char.isDigit).length_le
    have h3 := (List.dropWhile_sublist
      (l := ((((c :: rest).drop 10 |>.dropWhile (fun ch => ch ≠ '[')).drop 1).dropWhile
        Char.isDigit).drop 2)
      (fun ch => ch ≠ '\x27')).length_le
    simp only [List.length_drop, List.length_cons] at h1 h2 h3 ⊢
    omega
  · simp
  · simp

/-- `compiler_btp.clean_expression`: normalize an expression string.  An
empty (falsy) expression becomes the literal `False`; otherwise whitespace
is collapsed, `&&`/`||` become `and`/`or` (the source also calls
`replace` on `==`, `!=`, `<=`, `>=` with themselves, which are identity
rewrites and are kept here as such), function calls gain a `self._`
prefix, and numeric indexing is redirected through `self.data`.  The final
`re.sub(r'(\w+)_(\w+)_(\w+)', r'\1_\2_\3', expr)` of the source rewrites
every match to the matched text itself, so it leaves the string unchanged
and contributes no transformation. -/
def clean_expression (expr : List Char) : List Char :=
  if expr = [] then "False".data
  else
    let e := collapseWs (pyStrip expr)
    let e := replaceSub "&&".data "and".data e
    let e := replaceSub "||".data "or".data e
    let e := replaceSub "==".data "==".data e
    let e := replaceSub "!=".data "!=".data e
    let e := replaceSub "<=".data "<=".data e
    let e := replaceSub ">=".data ">=".data e
    let e := subFnCall e
    subArrIdx e

/-- The `price_volume_map` of `compile_btp.conv`, in Python dict order
(insertion order, which `for old, new in ... .items()` follows). -/
def price_volume_map : List (String × String) :=
  [("close", "self.data.close[0]"), ("volume", "self.data.volume[0]"),
   ("high", "self.data.high[0]"), ("low", "self.data.low[0]"),
   ("open", "self.data.open[0]"), ("price", "self.data.close[0]"),
   ("vol", "self.data.volume[0]"), ("c", "self.data.close[0]"),
   ("v", "self.data.volume[0]"), ("h", "self.data.high[0]"),
   ("l", "self.data.low[0]"), ("o", "self.data.open[0]")]

/-- The `indicator_patterns` of `compile_btp.conv`, in Python dict
order. -/
def indicator_patterns : List (String × String) :=
  [("bb_upper", "self.ind[\x27bb_upper\x27]"),
   ("bb_lower", "self.ind[\x27bb_lower\x27]"),
   ("bb_middle", "self.ind[\x27bb_middle\x27]"),
   ("bb_mid", "self.ind[\x27bb_middle\x27]"),
   ("bb_top", "self.ind[\x27bb_upper\x27]"),
   ("bb_bot", "self.ind[\x27bb_lower\x27]"),
   ("vol_sma", "self.ind[\x27vol_sma\x27]"),
   ("volume_sma", "self.ind[\x27vol_sma\x27]"),
   ("atr", "self.ind[\x27atr\x27]"),
   ("rsi", "self.ind[\x27rsi\x27]"),
   ("macd", "self.ind[\x27macd_line\x27]"),
   ("macd_signal", "self.ind[\x27signal_line\x27]"),
   ("macd_hist", "self.ind[\x27histogram\x27]")]

/-- The nested `conv` helper of `compile_btp`: an unset or empty signal
becomes the literal `False`; a nonempty one is cleaned and then rewritten
by the price/volume map, the per-indicator references (the source builds
each of these with `re.sub(r'\b' + ind.id + r'\b', ...)`, i.e.
whole-word semantics for the identifier-shaped ids the schema carries),
the common indicator patterns, and the three malformed-reference cleanup
substitutions.  The source also adds each indicator id to a
`used_indicators` set that is never read afterwards; that write-only
effect is dropped here. -/
def conv (indicators : List Indicator) (expr : List Char) : List Char :=
  if expr = [] then "False".data
  else
    let e := clean_expression expr
    let e := price_volume_map.foldl
      (fun acc ov => wholeWordReplace ov.1.data ov.2.data acc) e
    let e := indicators.foldl
      (fun acc ind => wholeWordReplace ind.id.data
        ("self.ind[\x27".data ++ ind.id.data ++ "\x27]".data) acc) e
    let e := indicator_patterns.foldl
      (fun acc pr => wholeWordReplace pr.1.data pr.2.data acc) e
    let e := fixNestedInd e
    let e := fixIndSuffix e
    fixDataSuffix e

/-- `compiler_btp.BTP_IND_MAP` restricted to the ten values the schema's
`Literal` admits for `Indicator.fn` (the source dict also carries `BB` and
`BOLLINGER` alias keys, which no schema-conformant value can select). -/
def BTP_IND_MAP : IndicatorFn → String
  | .EMA => "bt.indicators.EMA"
  | .SMA => "bt.indicators.SMA"
  | .WMA => "bt.indicators.WMA"
  | .ATR => "bt.indicators.ATR"
  | .RSI => "bt.indicators.RSI"
  | .MACD => "bt.indicators.MACD"
  | .BBANDS => "bt.indicators.BBands"
  | .STOCH => "bt.indicators.Stochastic"
  | .ADX => "bt.indicators.ADX"
  | .VWAP => "bt.indicators.VWAP"

/-- Python `params.get(key, default)` on an indicator's parameter dict. -/
def pyGet (params : List (String × Int)) (k : String) (d : Int) : Int :=
  match params.find? (fun p => p.1 = k) with
  | some p => p.2
  | none => d

/-- One iteration of the indicator-initialization loop of `compile_btp`.
State: the `indicator_set` of ids already seen, the `bb_created` flag, and
the accumulated `indicator_code` text. -/
def indStep (st : List String × Bool × String) (ind : Indicator) :
    List String × Bool × String :=
  let (seen, bbCreated, acc) := st
  if ind.id ∈ seen then st
  else
    let seen' := ind.id :: seen
    if ind.fn = .BBANDS ∧ bbCreated then (seen', bbCreated, acc)
    else
      match ind.fn with
      | .EMA =>
        let period := pyGet ind.params "period" 20
        (seen', bbCreated, acc ++ "        self.ind[\x27" ++ ind.id ++
          "\x27] = " ++ BTP_IND_MAP .EMA ++ "(self.data.close, period=" ++
          toString period ++ ")\n")
      | .SMA =>
        let period := pyGet ind.params "period" 20
        (seen', bbCreated, acc ++ "        self.ind[\x27" ++ ind.id ++
          "\x27] = " ++ BTP_IND_MAP .SMA ++ "(self.data.close, period=" ++
          toString period ++ ")\n")
      | .ATR =>
        let period := pyGet ind.params "period" 14
        (seen', bbCreated, acc ++ "        self.ind[\x27" ++ ind.id ++
          "\x27] = " ++ BTP_IND_MAP .ATR ++ "(self.data, period=" ++
          toString period ++ ")\n")
      | .RSI =>
        let period := pyGet ind.params "period" 14
        (seen', bbCreated, acc ++ "        self.ind[\x27" ++ ind.id ++
          "\x27] = " ++ BTP_IND_MAP .RSI ++ "(self.data.close, period=" ++
          toString period ++ ")\n")
      | .MACD =>
        let fast := pyGet ind.params "fast" 12
        let slow := pyGet ind.params "slow" 26
        let signal := pyGet ind.params "signal" 9
        (seen', bbCreated, acc ++
          "        macd = " ++ BTP_IND_MAP .MACD ++
          "(self.data.close, period_me1=" ++ toString fast ++
          ", period_me2=" ++ toString slow ++ ", period_signal=" ++
          toString signal ++ ")\n" ++
          "        self.ind[\x27macd_line\x27] = macd.macd\n" ++
          "        self.ind[\x27signal_line\x27] = macd.signal\n" ++
          "        self.ind[\x27histogram\x27] = macd.histo\n")
      | .BBANDS =>
        let period := pyGet ind.params "period" 20
        let std := pyGet ind.params "std" 2
        let deviation := pyGet ind.params "deviation" 2
        let std := if std ≠ 0 then std else deviation
        (seen', true, acc ++
          "        bb = " ++ BTP_IND_MAP .BBANDS ++
          "(self.data.close, period=" ++ toString period ++
          ", devfactor=" ++ toString std ++ ")\n" ++
          "        self.ind[\x27bb_upper\x27] = bb.lines.top\n" ++
          "        self.ind[\x27bb_middle\x27] = bb.lines.mid\n" ++
          "        self.ind[\x27bb_lower\x27] = bb.lines.bot\n" ++
          "        self.ind[\x27bb\x27] = bb.lines.mid\n")
      | .STOCH =>
        let period := pyGet ind.params "period" 14
        (seen', bbCreated, acc ++
          "        stoch = " ++ BTP_IND_MAP .STOCH ++
          "(self.data, period=" ++ toString period ++ ")\n" ++
          "        self.ind[\x27stoch_k\x27] = stoch.lines.percK\n" ++
          "        self.ind[\x27stoch_d\x27] = stoch.lines.percD\n")
      | .ADX =>
        let period := pyGet ind.params "period" 14
        (seen', bbCreated, acc ++
          "        adx = " ++ BTP_IND_MAP .ADX ++
          "(self.data, period=" ++ toString period ++ ")\n" ++
          "        self.ind[\x27adx\x27] = adx.lines.adx\n" ++
          "        self.ind[\x27di_plus\x27] = adx.lines.dip\n" ++
          "        self.ind[\x27di_minus\x27] = adx.lines.dim\n")
      | .VWAP =>
        let period := pyGet ind.params "period" 14
        (seen', bbCreated, acc ++ "        self.ind[\x27" ++ ind.id ++
          "\x27] = " ++ BTP_IND_MAP .VWAP ++ "(self.data, period=" ++
          toString period ++ ")\n")
      | .WMA =>
        -- the source's `elif` chain has no branch for `WMA`, so a WMA
        -- indicator contributes no initialization line
        (seen', bbCreated, acc)

/-- The full `indicator_code` text of `compile_btp`: the fold over
`dsl.indicators` followed by the three "essential indicators" appended
when their ids were not among the declared ones. -/
def indicatorCode (indicators : List Indicator) : String :=
  let st := indicators.foldl indStep ([], false, "")
  let seen := st.1
  let acc := st.2.2
  let acc := if "vol_sma" ∈ seen then acc else acc ++
    "        self.ind[\x27vol_sma\x27] = bt.indicators.SMA(self.data.volume, period=10)\n"
  let acc := if "bb_upper" ∈ seen then acc else acc ++
    "        bb = bt.indicators.BBands(self.data.close, period=20, devfactor=2)\n" ++
    "        self.ind[\x27bb_upper\x27] = bb.lines.top\n" ++
    "        self.ind[\x27bb_middle\x27] = bb.lines.mid\n" ++
    "        self.ind[\x27bb_lower\x27] = bb.lines.bot\n" ++
    "        self.ind[\x27bb\x27] = bb.lines.mid\n"
  if "atr" ∈ seen then acc else acc ++
    "        self.ind[\x27atr\x27] = bt.indicators.ATR(self.data, period=14)\n"
/-- Fixed template text number 0 of the `compile_btp` strategy f-string. -/
def tpl0 : String :=
  "import backtrader as bt\n" ++
  "\n" ++
  "class GeneratedStrategy(bt.Strategy):\n" ++
  "    def __init__(self):\n" ++
  "        self.ind = \x7b\x7d\n" ++
  "        self.order = None\n" ++
  "        self.trades = []\n" ++
  "        self.trade_count = 0\n"

/-- Fixed template text number 1 of the `compile_btp` strategy f-string. -/
def tpl1 : String :=
  "\n" ++
  "    \n" ++
  "    def _cross_over(self, a, b):\n" ++
  "        \"\"\"Check if a crosses over b (a > b and a_prev <= b_prev)\"\"\"\n" ++
  "        try:\n" ++
  "            return a[0] > b[0] and a[-1] <= b[-1]\n" ++
  "        except:\n" ++
  "            return False\n" ++
  "    \n" ++
  "    def _cross_under(self, a, b):\n" ++
  "        \"\"\"Check if a crosses under b (a < b and a_prev >= b_prev)\"\"\"\n" ++
  "        try:\n" ++
  "            return a[0] < b[0] and a[-1] >= b[-1]\n" ++
  "        except:\n" ++
  "            return False\n" ++
  "    \n" ++
  "    def _volume_high(self, threshold=1.5):\n" ++
  "        \"\"\"Check if current volume is above average\"\"\"\n" ++
  "        try:\n" ++
  "            avg_volume = sum([self.data.volume[-i] for i in range(1, 11)]) / 10\n" ++
  "            return self.data.volume[0] > avg_volume * threshold\n" ++
  "        except:\n" ++
  "            return False\n" ++
  "    \n" ++
  "    def _calculate_position_size(self, stop_loss_pips, risk_percent=1.0):\n" ++
  "        \"\"\"Calculate position size based on risk\"\"\"\n" ++
  "        try:\n" ++
  "            risk_amount = self.broker.getcash() * (risk_percent / 100)\n" ++
  "            position_size = risk_amount / stop_loss_pips\n" ++
  "            return max(1, int(position_size))\n" ++
  "        except:\n" ++
  "            return 1000  # Default position size\n" ++
  "    \n" ++
  "    def next(self):\n" ++
  "        # Exit conditions\n" ++
  "        if "

/-- Fixed template text number 2 of the `compile_btp` strategy f-string. -/
def tpl2 : String :=
  " and self.position.size > 0:\n" ++
  "            self.close()\n" ++
  "            return\n" ++
  "            \n" ++
  "        if "

/-- Fixed template text number 3 of the `compile_btp` strategy f-string. -/
def tpl3 : String :=
  " and self.position.size < 0:\n" ++
  "            self.close()\n" ++
  "            return\n" ++
  "        \n" ++
  "        # Entry logic\n" ++
  "        if self.position.size == 0 and self.order is None:\n" ++
  "            # Long entry\n" ++
  "            if "

/-- Fixed template text number 4 of the `compile_btp` strategy f-string. -/
def tpl4 : String :=
  ":\n" ++
  "                cash = self.broker.getcash()\n" ++
  "                if cash > 0:\n" ++
  "                    size = int(cash * 0.95 / self.data.close[0])\n" ++
  "                    if size > 0:\n" ++
  "                        self.order = self.buy(size=size)\n" ++
  "                        print(f\"BUY order placed: \x7bsize\x7d shares at \x7bself.data.close[0]\x7d\")\n" ++
  "            \n" ++
  "            # Short entry\n" ++
  "            elif "

/-- Fixed template text number 5 of the `compile_btp` strategy f-string. -/
def tpl5 : String :=
  ":\n" ++
  "                cash = self.broker.getcash()\n" ++
  "                if cash > 0:\n" ++
  "                    size = int(cash * 0.95 / self.data.close[0])\n" ++
  "                    if size > 0:\n" ++
  "                        self.order = self.sell(size=size)\n" ++
  "                        print(f\"SELL order placed: \x7bsize\x7d shares at \x7bself.data.close[0]\x7d\")\n" ++
  "    \n" ++
  "    def notify_order(self, order):\n" ++
  "        if order.status in [order.Completed]:\n" ++
  "            if order.isbuy():\n" ++
  "                print(f\"BUY executed: \x7border.size\x7d shares at \x7border.executed.price\x7d\")\n" ++
  "                self.trades.append(\x7b\n" ++
  "                    \x27id\x27: f\"trade_\x7bself.trade_count\x7d\",\n" ++
  "                    \x27type\x27: \x27buy\x27,\n" ++
  "                    \x27size\x27: order.size,\n" ++
  "                    \x27price\x27: order.executed.price,\n" ++
  "                    \x27timestamp\x27: self.data.datetime.datetime(),\n" ++
  "                    \x27status\x27: \x27completed\x27\n" ++
  "                \x7d)\n" ++
  "                self.trade_count += 1\n" ++
  "            elif order.issell():\n" ++
  "                print(f\"SELL executed: \x7border.size\x7d shares at \x7border.executed.price\x7d\")\n" ++
  "                self.trades.append(\x7b\n" ++
  "                    \x27id\x27: f\"trade_\x7bself.trade_count\x7d\",\n" ++
  "                    \x27type\x27: \x27sell\x27,\n" ++
  "                    \x27size\x27: order.size,\n" ++
  "                    \x27price\x27: order.executed.price,\n" ++
  "                    \x27timestamp\x27: self.data.datetime.datetime(),\n" ++
  "                    \x27status\x27: \x27completed\x27\n" ++
  "                \x7d)\n" ++
  "                self.trade_count += 1\n" ++
  "            self.order = None\n" ++
  "        elif order.status in [order.Canceled, order.Margin, order.Rejected]:\n" ++
  "            print(f\"Order canceled/margin/rejected: \x7border.status\x7d\")\n" ++
  "            self.order = None\n" ++
  "    \n" ++
  "    def notify_trade(self, trade):\n" ++
  "        \"\"\"Called when a trade is completed (position closed)\"\"\"\n" ++
  "        if trade.isclosed:\n" ++
  "            print(f\"Trade closed: \x7btrade.dtopen\x7d to \x7btrade.dtclose\x7d\")\n" ++
  "            print(f\"Size: \x7btrade.size\x7d, Price: \x7btrade.price\x7d, PnL: \x7btrade.pnl\x7d\")\n" ++
  "            \n" ++
  "            if self.trades:\n" ++
  "                last_trade = self.trades[-1]\n" ++
  "                last_trade[\x27close_timestamp\x27] = trade.dtclose\n" ++
  "                last_trade[\x27pnl\x27] = trade.pnl\n" ++
  "                last_trade[\x27commission\x27] = trade.commission\n"

/-- The `compile_btp` strategy f-string with its five interpolation slots
filled: fixed text `tpl0`–`tpl5` around `indicator_code` and the four
converted signals, in the order the template uses them
(`exit_long`, `exit_short`, `entry_long`, `entry_short`). -/
def strategyTemplate (ic xl xs el es : String) : String :=
  tpl0 ++ ic ++ tpl1 ++ xl ++ tpl2 ++ xs ++ tpl3 ++ el ++ tpl4 ++ es ++ tpl5

/-- `compiler_btp.compile_btp`: compile a DSL instance to the source text
of a `backtrader` strategy class. -/
def compile_btp (dsl : DSL) : String :=
  let entry_long := String.mk (conv dsl.indicators (dsl.signals.entry_long.getD "").data)
  let entry_short := String.mk (conv dsl.indicators (dsl.signals.entry_short.getD "").data)
  let exit_long := String.mk (conv dsl.indicators (dsl.signals.exit_long.getD "").data)
  let exit_short := String.mk (conv dsl.indicators (dsl.signals.exit_short.getD "").data)
  strategyTemplate (indicatorCode dsl.indicators) exit_long exit_short entry_long entry_short

/-! ## The backtest runners (`backtest_runner.py`)

Both runners wrap their whole body in `try/except Exception`, returning an
`ok=False` dictionary built from the caught exception.  The body is a
linear chain of steps; the external ones (pandas CSV parsing, `exec` of
the generated source, engine construction and run) are environment
parameters of type `Except PyError _`, and the internal ones (column
bookkeeping, minimum-length check, class lookup) are embedded directly.  A
data frame is reduced to what those steps consult: its column list and its
row count after `dropna()` (adding a constant column or copying an
existing one changes neither the rows that contain missing values nor the
count of complete rows).  Metric values are an opaque type `α` together
with records of the arithmetic the code applies to them.
`limit_resources` swallows every exception and only adjusts rlimits, so it
is not modelled.  The `timeframe` parameter of both runners is never read
by their bodies. -/

/-- A caught Python exception: `str(e)` and `traceback.format_exc()`. -/
structure PyError where
  msg : String
  tb : String
deriving DecidableEq, Repr

/-- A pandas data frame, reduced to the fields the runners consult. -/
structure Frame where
  cols : List String
  /-- `len(df)` after `df.dropna()`. -/
  n : Nat
  /-- `df.empty` of the raw frame (consulted by the data fetcher). -/
  empty : Bool := false
deriving DecidableEq, Repr

/-- `df[new] = df[old]` / `df[c] = constant`: ensure a column exists. -/
def addCol (f : Frame) (c : String) : Frame :=
  if f.cols.contains c then f else { f with cols := f.cols ++ [c] }

/-- The arithmetic the runners apply to metric values. -/
structure FloatOps (α : Type) where
  ofNat : Nat → α
  sub : α → α → α
  div : α → α → α
  mul : α → α → α
  /-- Python `int(x)` truncation, kept as a value of the metric type. -/
  toIntTrunc : α → α
  /-- Python `max(x, 1)`. -/
  max1 : α → α

/-- A node of a Python metrics dictionary: a leaf value or a nested dict
given as its ordered key/value pairs. -/
inductive MTree (α : Type) where
  | leaf (x : α)
  | node (entries : List (String × MTree α))

/-- The top-level keys of a metrics dictionary. -/
def MTree.topKeys {α : Type} : MTree α → List String
  | .leaf _ => []
  | .node es => es.map (fun e => e.1)

/-- The result dictionary of a runner: `ok=True` with metrics, trades,
equity curve and final value, or `ok=False` with error and traceback. -/
inductive RunResult (α B γ : Type) where
  | success (metrics : MTree α) (trades : List γ) (equity : Option B)
      (finalValue : α)
  | failure (error : String) (traceback : String)

/-- The `ok` field of the result dictionary. -/
def RunResult.ok {α B γ : Type} : RunResult α B γ → Bool
  | .success _ _ _ _ => true
  | .failure _ _ => false

/-- The `stats` object `backtesting.py`'s `bt.run()` returns, reduced to
the lookups the runner performs. -/
structure BpyStats (α B γ : Type) where
  /-- `stats.get(key, default)`, before the default is applied. -/
  get : String → Option α
  /-- The closed-trade records extracted from `bt._trades`. -/
  tradesOut : List γ
  /-- `bt._equity_curve` when present. -/
  equity : Option B

/-- The environment of one `run_backtestingpy` call. -/
structure EnvBPY (α B γ : Type) where
  ops : FloatOps α
  /-- `traceback.format_exc()` for an exception raised with the given
  message. -/
  raiseTb : String → String
  /-- `pd.read_csv(csv_path, parse_dates=True, index_col=0).sort_index()`. -/
  readCsv : String → Except PyError Frame
  /-- `exec(code_str, namespace, namespace)`; `true` iff the namespace
  then contains `GeneratedStrategy`. -/
  execCode : String → Except PyError Bool
  /-- `Backtest(...)` construction plus `bt.run()` for the given code. -/
  engine : String → Except PyError (BpyStats α B γ)

/-- `stats.get(k, d)` with its default. -/
def statGet {α B γ : Type} (st : BpyStats α B γ) (k : String) (d : α) : α :=
  (st.get k).getD d

/-- The column-fixing block of `run_backtestingpy`: if any of
`Open/High/Low/Close` is missing, copy each present lowercase/short
alias onto its canonical name; then add `Volume` if missing. -/
def fixColsBPY (f : Frame) : Frame :=
  let required := ["Open", "High", "Low", "Close"]
  let f :=
    if required.all (fun c => f.cols.contains c) then f
    else
      [("open", "Open"), ("high", "High"), ("low", "Low"), ("close", "Close"),
       ("o", "Open"), ("h", "High"), ("l", "Low"), ("c", "Close")].foldl
        (fun acc p => if acc.cols.contains p.1 then addCol acc p.2 else acc) f
  if f.cols.contains "Volume" then f else addCol f "Volume"

/-- The metrics dictionary `run_backtestingpy` builds from `stats`. -/
def metricsBPY {α B γ : Type} (ops : FloatOps α) (st : BpyStats α B γ) :
    MTree α :=
  let z := ops.ofNat 0
  let dd := statGet st "Max. Drawdown [%]" z
  let ret := statGet st "Return [%]" z
  let ntr := statGet st "# Trades" z
  let bh := statGet st "Buy & Hold Return [%]" z
  let bhdd := statGet st "Buy & Hold Max. Drawdown [%]" z
  let wr := statGet st "Win Rate [%]" z
  .node
    [("sharpe", .leaf (statGet st "Sharpe Ratio" z)),
     ("drawdown", .node
       [("max", .node [("drawdown", .leaf dd)]),
        ("drawdown", .leaf dd)]),
     ("returns", .node
       [("rtot", .leaf (ops.div ret (ops.ofNat 100))),
        ("rtot100", .leaf ret)]),
     ("trades", .node
       [("total", .node [("closed", .leaf ntr), ("total", .leaf ntr)])]),
     ("sqn", .node [("sqn", .leaf (statGet st "SQN" z))]),
     ("summary", .node
       [("pv_start", .leaf (ops.ofNat 100000)),
        ("pv_end", .leaf (statGet st "Equity Final [$]" (ops.ofNat 100000))),
        ("strategy_return_pct", .leaf ret),
        ("buy_hold_return_pct", .leaf bh),
        ("strategy_vs_buy_hold_pct", .leaf (ops.sub ret bh)),
        ("strategy_max_dd_pct", .leaf dd),
        ("buy_hold_max_dd_pct", .leaf bhdd),
        ("drawdown_diff_pct", .leaf (ops.sub dd bhdd)),
        ("win_rate_pct", .leaf wr),
        ("total_trades", .leaf ntr),
        ("won_trades", .leaf (ops.toIntTrunc (ops.div (ops.mul ntr wr) (ops.ofNat 100)))),
        ("lost_trades", .leaf (ops.toIntTrunc (ops.div (ops.mul ntr (ops.sub (ops.ofNat 100) wr)) (ops.ofNat 100)))),
        ("avg_pnl_per_trade", .leaf (statGet st "Avg. Trade [%]" z)),
        ("largest_win", .leaf (statGet st "Best Trade [%]" z)),
        ("largest_loss", .leaf (statGet st "Worst Trade [%]" z))])]

/-- The data a successful runner body hands to the `ok=True` dictionary. -/
structure RunOk (α B γ : Type) where
  metrics : MTree α
  trades : List γ
  equity : Option B
  finalValue : α

/-- The `try` body of `run_backtestingpy`. -/
def bodyBPY {α B γ : Type} (env : EnvBPY α B γ)
    (csvPath codeStr : String) : Except PyError (RunOk α B γ) :=
  match env.readCsv csvPath with
  | .error e => .error e
  | .ok df =>
    let df := fixColsBPY df
    if df.n < 100 then
      .error ⟨"Insufficient data for backtesting",
              env.raiseTb "Insufficient data for backtesting"⟩
    else
      match env.execCode codeStr with
      | .error e => .error e
      | .ok hasClass =>
        if ¬ hasClass then
          .error ⟨"GeneratedStrategy class not found in code",
                  env.raiseTb "GeneratedStrategy class not found in code"⟩
        else
          match env.engine codeStr with
          | .error e => .error e
          | .ok st =>
            .ok { metrics := metricsBPY env.ops st,
                  trades := st.tradesOut,
                  equity := st.equity,
                  finalValue := statGet st "Equity Final [$]" (env.ops.ofNat 100000) }

/-- `backtest_runner.run_backtestingpy`: the body wrapped in
`try/except Exception` producing the result dictionary. -/
def run_backtestingpy {α B γ : Type} (env : EnvBPY α B γ)
    (csvPath codeStr timeframe : String) : RunResult α B γ :=
  match bodyBPY env csvPath codeStr with
  | .ok r => .success r.metrics r.trades r.equity r.finalValue
  | .error e => .failure e.msg e.tb

/-- The analyzer data `run_backtrader`'s metric-extraction block reads,
one field per `get_analysis()` lookup chain. -/
structure Analysis (α : Type) where
  /-- `sharpe.get('sharperatio', 0)`. -/
  sharperatio : Option α
  /-- `drawdown.get('max', {}).get('drawdown', 0)`. -/
  maxDrawdown : Option α
  /-- `returns.get('rtot', 0)`. -/
  rtot : Option α
  /-- `returns.get('rtot100', 0)`. -/
  rtot100 : Option α
  /-- `trade_analysis.get('total', {}).get('total', 0)`. -/
  tradesTotal : Option α
  /-- `trade_analysis.get('won', {}).get('total', 0)`. -/
  won : Option α
  /-- `trade_analysis.get('lost', {}).get('total', 0)`. -/
  lost : Option α
  /-- `trade_analysis.get('won', {}).get('pnl', {}).get('max', 0)`. -/
  wonPnlMax : Option α
  /-- `trade_analysis.get('lost', {}).get('pnl', {}).get('max', 0)`. -/
  lostPnlMax : Option α
  /-- `sqn.get('sqn', 0)`. -/
  sqn : Option α

/-- The strategy object `cerebro.run()` returns, reduced to what the
runner reads from it. -/
structure BtrStrat (α γ : Type) where
  /-- The `get_analysis()` extraction block; an exception inside it selects
  the fallback metrics. -/
  analysis : Except PyError (Analysis α)
  /-- `cerebro.broker.getvalue()`. -/
  brokerValue : α
  /-- The trade-history extraction: its own `try/except` only logs on
  failure, so it always yields a (possibly empty) list. -/
  tradesOut : List γ

/-- The environment of one `run_backtrader` call. -/
structure EnvBTR (α γ : Type) where
  ops : FloatOps α
  raiseTb : String → String
  /-- `pd.read_csv(csv_path, parse_dates=True, index_col=0).sort_index()`. -/
  readCsv : String → Except PyError Frame
  /-- `pd.to_datetime` / timezone conversion of the index. -/
  indexFix : Except PyError Unit
  /-- `exec(code_str, namespace, namespace)`; `true` iff the namespace
  then contains `GeneratedStrategy`. -/
  execCode : String → Except PyError Bool
  /-- Cerebro construction, feed/strategy/analyzer registration and
  `cerebro.run()` for the given code. -/
  cerebroRun : String → Except PyError (BtrStrat α γ)

/-- Python `repr` of a list of strings, as used in the
`f"Missing required columns. Available: {list(df.columns)}"` message. -/
def pyListRepr (cols : List String) : String :=
  "[" ++ String.intercalate ", " (cols.map (fun c => "\x27" ++ c ++ "\x27")) ++ "]"

/-- The column-renaming loop of `run_backtrader`: copy each present
column of the mapping onto its lowercase name. -/
def renameColsBTR (f : Frame) : Frame :=
  [("open", "open"), ("high", "high"), ("low", "low"), ("close", "close"),
   ("volume", "volume"), ("Open", "open"), ("High", "high"), ("Low", "low"),
   ("Close", "close"), ("Volume", "volume")].foldl
    (fun acc p => if acc.cols.contains p.1 then addCol acc p.2 else acc) f

/-- The metrics dictionary of `run_backtrader` when analyzer extraction
succeeds. -/
def metricsBTR {α : Type} (ops : FloatOps α) (a : Analysis α)
    (brokerValue : α) : MTree α :=
  let z := ops.ofNat 0
  let dd := (a.maxDrawdown).getD z
  let totalTrades := (a.tradesTotal).getD z
  let won := (a.won).getD z
  .node
    [("sharpe", .leaf ((a.sharperatio).getD z)),
     ("drawdown", .node
       [("max", .node [("drawdown", .leaf dd)]),
        ("drawdown", .leaf dd)]),
     ("returns", .node
       [("rtot", .leaf ((a.rtot).getD z)),
        ("rtot100", .leaf ((a.rtot100).getD z))]),
     ("trades", .node
       [("total", .node [("closed", .leaf totalTrades), ("total", .leaf totalTrades)])]),
     ("sqn", .node [("sqn", .leaf ((a.sqn).getD z))]),
     ("summary", .node
       [("pv_start", .leaf (ops.ofNat 100000)),
        ("pv_end", .leaf brokerValue),
        ("strategy_return_pct", .leaf ((a.rtot100).getD z)),
        ("buy_hold_return_pct", .leaf z),
        ("strategy_vs_buy_hold_pct", .leaf ((a.rtot100).getD z)),
        ("strategy_max_dd_pct", .leaf dd),
        ("buy_hold_max_dd_pct", .leaf z),
        ("drawdown_diff_pct", .leaf dd),
        ("win_rate_pct", .leaf (ops.mul (ops.div won (ops.max1 totalTrades)) (ops.ofNat 100))),
        ("total_trades", .leaf totalTrades),
        ("won_trades", .leaf won),
        ("lost_trades", .leaf ((a.lost).getD z)),
        ("avg_pnl_per_trade", .leaf z),
        ("largest_win", .leaf ((a.wonPnlMax).getD z)),
        ("largest_loss", .leaf ((a.lostPnlMax).getD z))])]

/-- The fallback metrics dictionary `run_backtrader` builds when the
analyzer extraction block raises. -/
def metricsBTRFallback {α : Type} (ops : FloatOps α) (brokerValue : α) :
    MTree α :=
  let z := ops.ofNat 0
  .node
    [("sharpe", .leaf z),
     ("drawdown", .node
       [("max", .node [("drawdown", .leaf z)]),
        ("drawdown", .leaf z)]),
     ("returns", .node [("rtot", .leaf z), ("rtot100", .leaf z)]),
     ("trades", .node
       [("total", .node [("closed", .leaf z), ("total", .leaf z)])]),
     ("sqn", .node [("sqn", .leaf z)]),
     ("summary", .node
       [("pv_start", .leaf (ops.ofNat 100000)),
        ("pv_end", .leaf brokerValue),
        ("strategy_return_pct", .leaf z),
        ("buy_hold_return_pct", .leaf z),
        ("strategy_vs_buy_hold_pct", .leaf z),
        ("strategy_max_dd_pct", .leaf z),
        ("buy_hold_max_dd_pct", .leaf z),
        ("drawdown_diff_pct", .leaf z),
        ("win_rate_pct", .leaf z),
        ("total_trades", .leaf z),
        ("won_trades", .leaf z),
        ("lost_trades", .leaf z),
        ("avg_pnl_per_trade", .leaf z),
        ("largest_win", .leaf z),
        ("largest_loss", .leaf z)])]

/-- The `try` body of `run_backtrader` (with `initial_capital` left at its
default `100000.0`, the only way the repository calls it from the autofix
loop). -/
def bodyBTR {α B γ : Type} (env : EnvBTR α γ)
    (csvPath codeStr : String) : Except PyError (RunOk α B γ) :=
  match env.readCsv csvPath with
  | .error e => .error e
  | .ok df =>
    match env.indexFix with
    | .error e => .error e
    | .ok _ =>
      let df := renameColsBTR df
      if ¬ (["open", "high", "low", "close"].all (fun c => df.cols.contains c)) then
        .error ⟨"Missing required columns. Available: " ++ pyListRepr df.cols,
                env.raiseTb ("Missing required columns. Available: " ++ pyListRepr df.cols)⟩
      else
        let df := if df.cols.contains "volume" then df else addCol df "volume"
        if df.n < 100 then
          .error ⟨"Insufficient data for backtesting",
                  env.raiseTb "Insufficient data for backtesting"⟩
        else
          match env.execCode codeStr with
          | .error e => .error e
          | .ok hasClass =>
            if ¬ hasClass then
              .error ⟨"GeneratedStrategy class not found in code",
                      env.raiseTb "GeneratedStrategy class not found in code"⟩
            else
              match env.cerebroRun codeStr with
              | .error e => .error e
              | .ok strat =>
                let metrics :=
                  match strat.analysis with
                  | .ok a => metricsBTR env.ops a strat.brokerValue
                  | .error _ => metricsBTRFallback env.ops strat.brokerValue
                .ok { metrics := metrics,
                      trades := strat.tradesOut,
                      equity := none,
                      finalValue := strat.brokerValue }

/-- `backtest_runner.run_backtrader`: the body wrapped in
`try/except Exception` producing the result dictionary (its
`equity_curve` field is always `None`). -/
def run_backtrader {α B γ : Type} (env : EnvBTR α γ)
    (csvPath codeStr timeframe : String) : RunResult α B γ :=
  match bodyBTR env csvPath codeStr with
  | .ok r => .success r.metrics r.trades r.equity r.finalValue
  | .error e => .failure e.msg e.tb

/-! ## The data fetcher (`data_fetcher.py`) -/

/-- The environment of `_format_data_for_backtesting`: the index
conversion is the only external step that can raise. -/
structure FmtEnv where
  idxFix : Except PyError Unit
  raiseTb : String → String

/-- `df.rename(columns={"Open": "open", ...})`: rename the uppercase
price columns to lowercase. -/
def renameFmt (f : Frame) : Frame :=
  { f with cols := f.cols.map (fun c =>
      if c = "Open" then "open"
      else if c = "High" then "high"
      else if c = "Low" then "low"
      else if c = "Close" then "close"
      else if c = "Volume" then "volume"
      else c) }

/-- `DataFetcher._format_data_for_backtesting`: its `except` clause only
logs and re-raises, so the function is its `try` body.  (`Frame.n` stands
for the complete-row count of the price/volume columns, which is what the
`dropna` here computes after the frame has been cut down to exactly those
columns.) -/
def format_data_for_backtesting (env : FmtEnv) (df : Frame) :
    Except PyError Frame :=
  match env.idxFix with
  | .error e => .error e
  | .ok _ =>
    let df := renameFmt df
    let df := { df with
      cols := ["open", "high", "low", "close", "volume"].filter
        (fun c => df.cols.contains c) }
    let df := if df.cols.contains "volume" then df else addCol df "volume"
    if df.n < 10 then
      .error ⟨"Insufficient data: only " ++ toString df.n ++ " points",
              env.raiseTb ("Insufficient data: only " ++ toString df.n ++ " points")⟩
    else
      .ok df

/-- The environment of one `DataFetcher.fetch_data` call, over an opaque
datetime type `D`. -/
structure FetchEnv (D : Type) where
  raiseTb : String → String
  /-- `datetime.now()`. -/
  now : D
  /-- `d - timedelta(days=365)`. -/
  sub365 : D → D
  /-- `d > datetime.now()`. -/
  isAfterNow : D → Bool
  /-- `d.strftime('%Y-%m-%d')`. -/
  fmtDate : D → String
  cache_dir : String
  /-- `os.path.exists`. -/
  fileExists : String → Bool
  /-- `pd.read_csv(cache_file, index_col=0, parse_dates=True)`. -/
  readCache : String → Except PyError Frame
  /-- `_fetch_yfinance(symbol, start, end, timeframe)`: catches its own
  exceptions and returns `None` on any failure, insufficient data
  (fewer than 10 rows) included. -/
  provider : String → String → String → String → Option Frame
  /-- `data.to_csv(cache_file)`. -/
  writeCsv : String → Except PyError Unit
  fmt : FmtEnv

/-- The default-filling and clamping of the date arguments at the top of
`fetch_data`. -/
def fetchDates {D : Type} (env : FetchEnv D) (startDate endDate : Option D) :
    D × D :=
  let endD := endDate.getD env.now
  let startD := startDate.getD (env.sub365 endD)
  let startD := if env.isAfterNow startD then env.sub365 env.now else startD
  let endD := if env.isAfterNow endD then env.now else endD
  (startD, endD)

/-- The cache file path `fetch_data` computes:
`os.path.join(cache_dir, f"{normalized}_{start}_{end}.csv")`. -/
def cacheFileName {D : Type} (env : FetchEnv D) (symbol : String)
    (startDate endDate : Option D) : String :=
  let d := fetchDates env startDate endDate
  env.cache_dir ++ "/" ++ DataFetcher.normalizeStr symbol ++ "_" ++
    env.fmtDate d.1 ++ "_" ++ env.fmtDate d.2 ++ ".csv"

/-- What one `fetch_data` call returns and does: its result (the outer
`except` only logs and re-raises), whether `_fetch_yfinance` was invoked,
and which cache files were written. -/
structure FetchOut where
  result : Except PyError Frame
  providerQueried : Bool
  wrote : List String

/-- `DataFetcher.fetch_data`. -/
def fetch_data {D : Type} (env : FetchEnv D) (symbol : String)
    (startDate endDate : Option D) (timeframe : String) : FetchOut :=
  let normalized := DataFetcher.normalizeStr symbol
  let d := fetchDates env startDate endDate
  let startStr := env.fmtDate d.1
  let endStr := env.fmtDate d.2
  let cacheFile := env.cache_dir ++ "/" ++ normalized ++ "_" ++ startStr ++
    "_" ++ endStr ++ ".csv"
  let fromProvider : FetchOut :=
    match env.provider normalized startStr endStr timeframe with
    | some data =>
      if data.empty = false then
        match env.writeCsv cacheFile with
        | .error e => ⟨.error e, true, []⟩
        | .ok _ => ⟨format_data_for_backtesting env.fmt data, true, [cacheFile]⟩
      else
        ⟨.error ⟨"No data returned for " ++ normalized,
                 env.raiseTb ("No data returned for " ++ normalized)⟩, true, []⟩
    | none =>
      ⟨.error ⟨"No data returned for " ++ normalized,
               env.raiseTb ("No data returned for " ++ normalized)⟩, true, []⟩
  if env.fileExists cacheFile then
    match env.readCache cacheFile with
    | .error e => ⟨.error e, false, []⟩
    | .ok data =>
      if data.empty = false then
        ⟨format_data_for_backtesting env.fmt data, false, []⟩
      else fromProvider
  else fromProvider

/-! ## The autofix loop (`autofix.py`) -/

/-- One entry of the `attempts` list: Python stores the attempt label as
an `int` for runner failures and as the string `"{n}_repair_failed"` for
repair failures; both are carried here in string form. -/
structure AttemptRec where
  attempt : String
  error : String
  traceback : String
  code : String
deriving DecidableEq, Repr

/-- The dictionary `try_run_with_autofix` returns. -/
inductive FixOutcome (α B γ : Type) where
  | success (code : String) (metrics : MTree α) (trades : List γ)
      (equity : Option B) (finalValue : α) (attempts : List AttemptRec)
  | failure (attempts : List AttemptRec) (error : String)

/-- The `for attempt_num in range(max_attempts)` loop of
`try_run_with_autofix`, by recursion on the remaining iteration count;
the pair's second component counts runner invocations.  Python's loop
index `attempt_num` equals `maxAttempts - remaining` when `remaining`
iterations are still available, and the source's guard
`attempt_num < max_attempts - 1` holds exactly when `remaining ≥ 2`,
i.e. when the `remaining = r + 2` branch below is taken. -/
def autofixGo {α B γ : Type} (runner : String → RunResult α B γ)
    (repair : String → String → String → Except String String)
    (maxAttempts : Nat) :
    Nat → String → List AttemptRec → FixOutcome α B γ × Nat
  | 0, _, attempts =>
    (.failure attempts ("Failed after " ++ toString maxAttempts ++ " attempts"), 0)
  | Nat.succ remaining, code, attempts =>
    match runner code with
    | .success m t e f => (.success code m t e f attempts, 1)
    | .failure err tb =>
      let attemptNum := maxAttempts - (remaining + 1)
      let attempts' := attempts ++ [⟨toString (attemptNum + 1), err, tb, code⟩]
      match remaining with
      | 0 =>
        (.failure attempts' ("Failed after " ++ toString maxAttempts ++ " attempts"), 1)
      | Nat.succ r =>
        match repair err tb code with
        | .ok newCode =>
          let next := autofixGo runner repair maxAttempts (r + 1) newCode attempts'
          (next.1, next.2 + 1)
        | .error repairMsg =>
          (.failure
            (attempts' ++ [⟨toString (attemptNum + 1) ++ "_repair_failed",
                "Repair failed: " ++ repairMsg, "", code⟩])
            ("Failed after " ++ toString maxAttempts ++ " attempts"), 1)

/-- `autofix.try_run_with_autofix`: compile once, then run with automatic
LLM repair on failure.  `repair` is `llm.repair_dsl`, which may raise
(`Except.error` carries `str(repair_error)`); the `prompt` string the
loop body builds before calling it is never passed anywhere and is
dropped.  The runner for each attempt is chosen from `dsl.framework`,
exactly as in the source. -/
def try_run_with_autofix {α B γ : Type} (envB : EnvBPY α B γ)
    (envT : EnvBTR α γ) (dsl : DSL) (compileFn : DSL → String)
    (csvPath : String)
    (repair : String → String → String → Except String String)
    (maxAttempts : Nat) : FixOutcome α B γ × Nat :=
  let code := compileFn dsl
  let runner : String → RunResult α B γ := fun c =>
    match dsl.framework with
    | .backtrader => run_backtrader envT csvPath c dsl.timeframe
    | .backtestingpy => run_backtestingpy envB csvPath c dsl.timeframe
  autofixGo runner repair maxAttempts maxAttempts code []

/-! ## Concrete instances used by witnesses and counterexamples -/

/-- Trivial metric arithmetic over `Unit`, for witness environments. -/
def unitOps : FloatOps Unit :=
  { ofNat := fun _ => (), sub := fun _ _ => (), div := fun _ _ => (),
    mul := fun _ _ => (), toIntTrunc := fun _ => (), max1 := fun _ => () }

/-- A `stats` object over `Unit` with no recorded keys. -/
def unitStats : BpyStats Unit Unit Unit :=
  { get := fun _ => none, tradesOut := [], equity := none }

/-- An analyzer record over `Unit` with no recorded keys. -/
def unitAnalysis : Analysis Unit :=
  { sharperatio := none, maxDrawdown := none, rtot := none, rtot100 := none,
    tradesTotal := none, won := none, lost := none, wonPnlMax := none,
    lostPnlMax := none, sqn := none }

/-- A frame with the canonical uppercase price columns and `n` complete
rows. -/
def testFrame (n : Nat) : Frame :=
  { cols := ["Open", "High", "Low", "Close", "Volume"], n := n }

/-- A `run_backtestingpy` environment in which every step succeeds over a
200-row frame. -/
def envBPYok : EnvBPY Unit Unit Unit :=
  { ops := unitOps, raiseTb := fun m => "Traceback: " ++ m,
    readCsv := fun _ => .ok (testFrame 200),
    execCode := fun _ => .ok true,
    engine := fun _ => .ok unitStats }

/-- A `run_backtrader` environment in which every step succeeds over a
200-row frame with lowercase columns. -/
def envBTRok : EnvBTR Unit Unit :=
  { ops := unitOps, raiseTb := fun m => "Traceback: " ++ m,
    readCsv := fun _ => .ok { cols := ["open", "high", "low", "close", "volume"], n := 200 },
    indexFix := .ok (),
    execCode := fun _ => .ok true,
    cerebroRun := fun _ =>
      .ok { analysis := .ok unitAnalysis, brokerValue := (), tradesOut := [] } }

/-- A `run_backtestingpy` environment whose CSV read raises, so every run
fails. -/
def envBPYfail : EnvBPY Unit Unit Unit :=
  { ops := unitOps, raiseTb := fun m => "Traceback: " ++ m,
    readCsv := fun _ => .error ⟨"boom", "tb"⟩,
    execCode := fun _ => .ok true,
    engine := fun _ => .ok unitStats }

/-- A `run_backtrader` environment whose CSV read raises. -/
def envBTRfail : EnvBTR Unit Unit :=
  { ops := unitOps, raiseTb := fun m => "Traceback: " ++ m,
    readCsv := fun _ => .error ⟨"boom", "tb"⟩,
    indexFix := .ok (),
    execCode := fun _ => .ok true,
    cerebroRun := fun _ =>
      .ok { analysis := .ok unitAnalysis, brokerValue := (), tradesOut := [] } }

/-- A `run_backtestingpy` environment that reads a 50-row frame
successfully. -/
def envBPY50 : EnvBPY Unit Unit Unit :=
  { envBPYok with readCsv := fun _ => .ok (testFrame 50) }

/-- A `run_backtrader` environment that reads a 50-row lowercase-column
frame successfully. -/
def envBTR50 : EnvBTR Unit Unit :=
  { envBTRok with
    readCsv := fun _ => .ok { cols := ["open", "high", "low", "close", "volume"], n := 50 } }

/-- A DSL whose `framework` selects `backtestingpy`, with no indicators
and no signals. -/
def dslBPY : DSL :=
  { name := "s", symbols := ["AAPL"], timeframe := "1h", indicators := [],
    signals := {}, framework := .backtestingpy }

/-- A format environment whose index conversion succeeds. -/
def fmtEnvOk : FmtEnv :=
  { idxFix := .ok (), raiseTb := fun m => "Traceback: " ++ m }

/-- A fetch environment (over a trivial clock) with a cache hit holding a
non-empty 50-row frame. -/
def fetchEnvHit : FetchEnv Unit :=
  { raiseTb := fun m => "Traceback: " ++ m,
    now := (), sub365 := fun _ => (), isAfterNow := fun _ => false,
    fmtDate := fun _ => "2024-01-01",
    cache_dir := "data_cache",
    fileExists := fun _ => true,
    readCache := fun _ => .ok (testFrame 50),
    provider := fun _ _ _ _ => none,
    writeCsv := fun _ => .ok (),
    fmt := fmtEnvOk }

/-- A fetch environment with no cache file and a provider that returns a
non-empty 50-row frame. -/
def fetchEnvMiss : FetchEnv Unit :=
  { fetchEnvHit with
    fileExists := fun _ => false,
    readCache := fun _ => .error ⟨"no file", "tb"⟩,
    provider := fun _ _ _ _ => some (testFrame 50) }

/-! ## Helper lemmas -/

/-- A one-character suffix test is a last-character test. -/
theorem isSuffixOf_singleton (ch : Char) (l : List Char) :
    List.isSuffixOf [ch] l = true ↔ l.getLast? = some ch := by
  rw [List.isSuffixOf_iff_suffix]
  constructor
  · rintro ⟨t, rfl⟩
    simp
  · intro h
    cases hl : l.reverse with
    | nil => simp [List.reverse_eq_nil_iff] at hl; subst hl; simp at h
    | cons a as =>
      have : l = as.reverse ++ [a] := by
        have := congrArg List.reverse hl
        simpa using this
      subst this
      simp at h
      subst h
      exact ⟨as.reverse, rfl⟩

/-- `addCol` does not change the row count. -/
theorem addCol_n (f : Frame) (c : String) : (addCol f c).n = f.n := by
  unfold addCol
  split <;> rfl

/-- The column-copying folds of the runners do not change the row
count. -/
theorem foldl_copy_n (ps : List (String × String)) (f : Frame) :
    (ps.foldl (fun acc p =>
      if acc.cols.contains p.1 then addCol acc p.2 else acc) f).n = f.n := by
  induction ps generalizing f with
  | nil => rfl
  | cons p ps ih =>
    rw [List.foldl_cons, ih]
    split <;> simp [addCol_n]

/-- `fixColsBPY` does not change the row count. -/
theorem fixColsBPY_n (f : Frame) : (fixColsBPY f).n = f.n := by
  unfold fixColsBPY
  dsimp only
  split <;> split <;> simp only [addCol_n, foldl_copy_n]

/-- `renameColsBTR` does not change the row count. -/
theorem renameColsBTR_n (f : Frame) : (renameColsBTR f).n = f.n := by
  unfold renameColsBTR
  exact foldl_copy_n _ f

/-- `valid_tf` is a last-character test. -/
theorem valid_tf_iff (tf : String) :
    valid_tf tf = true ↔
      (tf.data.getLast? = some 'm' ∨ tf.data.getLast? = some 'h' ∨
       tf.data.getLast? = some 'd') := by
  unfold valid_tf
  have hm : ("m" : String).data = ['m'] := rfl
  have hh : ("h" : String).data = ['h'] := rfl
  have hd : ("d" : String).data = ['d'] := rfl
  simp only [List.map_cons, List.map_nil, List.any_cons, List.any_nil,
    Bool.or_eq_true, Bool.or_false, hm, hh, hd]
  rw [isSuffixOf_singleton, isSuffixOf_singleton, isSuffixOf_singleton]

/-! ## C5: the DSL timeframe validator -/

/-- C5: Constructing a DSL instance runs exactly one custom field
validator, on `timeframe`: for every timeframe string (and arbitrary
values of every other declared field, which appear only as universally
quantified parameters here and are never consulted), construction
succeeds if and only if the string ends with the letter `m`, `h`, or
`d`. -/
theorem C5_dsl_validator (name : String) (symbols : List String)
    (timeframe : String) (indicators : List Indicator) (signals : Signals)
    (risk : Risk) (constraints : List (String × String))
    (framework : Framework) :
    (mkDSL name symbols timeframe indicators signals risk constraints
      framework).isOk = true ↔
      (timeframe.data.getLast? = some 'm' ∨
       timeframe.data.getLast? = some 'h' ∨
       timeframe.data.getLast? = some 'd') := by
  unfold mkDSL
  by_cases hv : valid_tf timeframe = true
  · rw [if_pos hv]
    exact ⟨fun _ => (valid_tf_iff _).mp hv, fun _ => rfl⟩
  · rw [if_neg hv]
    constructor
    · intro h
      simp [Except.isOk, Except.toBool] at h
    · intro h
      exact absurd ((valid_tf_iff _).mpr h) hv

/-! ## C3, C4: runner error handling and metric keys -/

/-- The metrics of a successful `bodyBPY` come from `metricsBPY`. -/
theorem bodyBPY_ok_metrics {α B γ : Type} (env : EnvBPY α B γ)
    (csv code : String) (r : RunOk α B γ)
    (h : bodyBPY env csv code = .ok r) :
    ∃ st : BpyStats α B γ, r.metrics = metricsBPY env.ops st := by
  unfold bodyBPY at h
  cases hr : env.readCsv csv <;> rw [hr] at h <;> dsimp only at h
  case error e => exact Except.noConfusion h
  case ok df =>
    split at h
    · exact Except.noConfusion h
    · cases hx : env.execCode code <;> rw [hx] at h <;> dsimp only at h
      · exact Except.noConfusion h
      · split at h
        · exact Except.noConfusion h
        · cases he : env.engine code <;> rw [he] at h <;> dsimp only at h
          · exact Except.noConfusion h
          · rename_i st
            rw [Except.ok.injEq] at h
            exact ⟨st, by rw [← h]⟩

set_option maxHeartbeats 1600000

/-- The metrics of a successful `bodyBTR` come from `metricsBTR` or its
fallback. -/
theorem bodyBTR_ok_metrics {α B γ : Type} (env : EnvBTR α γ)
    (csv code : String) (r : RunOk α B γ)
    (h : bodyBTR (B := B) env csv code = .ok r) :
    (∃ a : Analysis α, ∃ v : α, r.metrics = metricsBTR env.ops a v) ∨
      (∃ v : α, r.metrics = metricsBTRFallback env.ops v) := by
  unfold bodyBTR at h
  cases hr : env.readCsv csv <;> rw [hr] at h <;> dsimp only at h
  case error e => exact Except.noConfusion h
  case ok df =>
    cases hi : env.indexFix <;> rw [hi] at h <;> dsimp only at h
    · exact Except.noConfusion h
    · split at h
      · exact Except.noConfusion h
      · rw [show (if (renameColsBTR df).cols.contains "volume" = true
              then renameColsBTR df
              else addCol (renameColsBTR df) "volume").n = (renameColsBTR df).n by
            split
            · rfl
            · exact addCol_n _ _] at h
        split at h
        · exact Except.noConfusion h
        · cases hx : env.execCode code <;> rw [hx] at h <;> dsimp only at h
          · exact Except.noConfusion h
          · split at h
            · exact Except.noConfusion h
            · cases hc : env.cerebroRun code <;> rw [hc] at h <;> dsimp only at h
              · exact Except.noConfusion h
              · rename_i strat
                rw [Except.ok.injEq] at h
                cases ha : strat.analysis <;> rw [ha] at h <;> dsimp only at h
                · exact Or.inr ⟨strat.brokerValue, by rw [← h]⟩
                · rename_i a
                  exact Or.inl ⟨a, strat.brokerValue, by rw [← h]⟩

/-- C3: `run_backtestingpy` and `run_backtrader` never raise: every call
returns either an `ok=True` success dictionary, or an `ok=False`
dictionary carrying exactly the `str(e)` and `traceback.format_exc()` of
the exception its body raised. -/
theorem C3_runners_never_raise {α B γ : Type} (envB : EnvBPY α B γ)
    (envT : EnvBTR α γ) (csvPath codeStr timeframe : String) :
    ((∃ m t e f, run_backtestingpy envB csvPath codeStr timeframe =
        .success m t e f) ∨
      (∃ err : PyError, bodyBPY envB csvPath codeStr = .error err ∧
        run_backtestingpy envB csvPath codeStr timeframe =
          .failure err.msg err.tb)) ∧
    ((∃ m t e f, run_backtrader (B := B) envT csvPath codeStr timeframe =
        .success m t e f) ∨
      (∃ err : PyError, bodyBTR (B := B) envT csvPath codeStr = .error err ∧
        run_backtrader (B := B) envT csvPath codeStr timeframe =
          .failure err.msg err.tb)) := by
  constructor
  · cases hb : bodyBPY envB csvPath codeStr with
    | ok r =>
      exact Or.inl ⟨r.metrics, r.trades, r.equity, r.finalValue,
        by unfold run_backtestingpy; rw [hb]⟩
    | error e =>
      exact Or.inr ⟨e, rfl, by unfold run_backtestingpy; rw [hb]⟩
  · cases hb : bodyBTR (B := B) envT csvPath codeStr with
    | ok r =>
      exact Or.inl ⟨r.metrics, r.trades, r.equity, r.finalValue,
        by unfold run_backtrader; rw [hb]⟩
    | error e =>
      exact Or.inr ⟨e, rfl, by unfold run_backtrader; rw [hb]⟩

/-- C4: whenever either runner returns `ok=True`, the metrics dictionary
has exactly the top-level keys `sharpe`, `drawdown`, `returns`, `trades`,
`sqn`, `summary`; and the two runners' metric dictionaries (the
backtrader fallback included) have identical key structure, witnessed by
their coincidence once every leaf value is erased to `Unit`. -/
theorem C4_metrics_keys {α B γ : Type} (envB : EnvBPY α B γ)
    (envT : EnvBTR α γ) (csv code tf : String) :
    (∀ m t e f, run_backtestingpy envB csv code tf = .success m t e f →
      m.topKeys = ["sharpe", "drawdown", "returns", "trades", "sqn", "summary"]) ∧
    (∀ m t e f, run_backtrader (B := B) envT csv code tf = .success m t e f →
      m.topKeys = ["sharpe", "drawdown", "returns", "trades", "sqn", "summary"]) ∧
    metricsBPY unitOps unitStats = metricsBTR unitOps unitAnalysis () ∧
    metricsBPY unitOps unitStats = metricsBTRFallback unitOps () := by
  refine ⟨?_, ?_, rfl, rfl⟩
  · intro m t e f h
    unfold run_backtestingpy at h
    cases hb : bodyBPY envB csv code <;> rw [hb] at h <;> dsimp only at h
    · exact RunResult.noConfusion h
    · rename_i r
      rw [RunResult.success.injEq] at h
      obtain ⟨st, hst⟩ := bodyBPY_ok_metrics envB csv code r hb
      rw [← h.1, hst]
      rfl
  · intro m t e f h
    unfold run_backtrader at h
    cases hb : bodyBTR (B := B) envT csv code <;> rw [hb] at h <;> dsimp only at h
    · exact RunResult.noConfusion h
    · rename_i r
      rw [RunResult.success.injEq] at h
      rcases bodyBTR_ok_metrics envT csv code r hb with ⟨a, v, hav⟩ | ⟨v, hv⟩
      · rw [← h.1, hav]; rfl
      · rw [← h.1, hv]; rfl

/-- Witness for C4: concrete all-steps-succeed environments for both
runners, whose successful metric dictionaries have the six fixed
top-level keys. -/
theorem C4_metrics_keys_witness :
    (metricsBPY unitOps unitStats).topKeys =
      ["sharpe", "drawdown", "returns", "trades", "sqn", "summary"] ∧
    (metricsBTR unitOps unitAnalysis ()).topKeys =
      ["sharpe", "drawdown", "returns", "trades", "sqn", "summary"] :=
  ⟨(C4_metrics_keys envBPYok envBTRok "prices.csv" "code" "1h").1
      (metricsBPY unitOps unitStats) [] none () rfl,
   (C4_metrics_keys envBPYok envBTRok "prices.csv" "code" "1h").2.1
      (metricsBTR unitOps unitAnalysis ()) [] none () rfl⟩

/-! ## C10: the 100-row minimum versus the fetcher's 10-row minimum -/

/-- C10: whenever the CSV parses (and, for backtrader, the index fix and
required-column check pass), both runners reject a frame with fewer than
100 complete rows with the error `Insufficient data for backtesting`,
while `_format_data_for_backtesting` accepts any frame with at least 10
complete rows — so a fetch can succeed whose data every backtest run
rejects. -/
theorem C10_insufficient_data {α B γ : Type} (envB : EnvBPY α B γ)
    (envT : EnvBTR α γ) (fe : FmtEnv) (csv code tf : String)
    (f g frame : Frame) :
    (envB.readCsv csv = .ok f → f.n < 100 →
      run_backtestingpy envB csv code tf =
        .failure "Insufficient data for backtesting"
          (envB.raiseTb "Insufficient data for backtesting")) ∧
    (envT.readCsv csv = .ok g → envT.indexFix = .ok () →
      (["open", "high", "low", "close"].all
        (fun c => (renameColsBTR g).cols.contains c)) = true →
      g.n < 100 →
      run_backtrader (B := B) envT csv code tf =
        .failure "Insufficient data for backtesting"
          (envT.raiseTb "Insufficient data for backtesting")) ∧
    (fe.idxFix = .ok () → 10 ≤ frame.n →
      ∃ out, format_data_for_backtesting fe frame = .ok out) := by
  refine ⟨?_, ?_, ?_⟩
  · intro h1 h2
    unfold run_backtestingpy bodyBPY
    rw [h1]
    dsimp only
    rw [if_pos (by rw [fixColsBPY_n]; exact h2)]
  · intro h1 h2 h3 h4
    unfold run_backtrader bodyBTR
    rw [h1, h2]
    dsimp only
    rw [if_neg (by rw [h3]; exact not_not_intro rfl)]
    rw [show (if (renameColsBTR g).cols.contains "volume" = true
          then renameColsBTR g
          else addCol (renameColsBTR g) "volume").n = (renameColsBTR g).n by
        split
        · rfl
        · exact addCol_n _ _]
    rw [if_pos (by rw [renameColsBTR_n]; exact h4)]
  · intro h1 h2
    unfold format_data_for_backtesting
    rw [h1]
    dsimp only
    rw [show (if (List.filter (fun c => (renameFmt frame).cols.contains c)
              ["open", "high", "low", "close", "volume"]).contains "volume" = true
          then { renameFmt frame with
                 cols := List.filter (fun c => (renameFmt frame).cols.contains c)
                   ["open", "high", "low", "close", "volume"] }
          else addCol { renameFmt frame with
                 cols := List.filter (fun c => (renameFmt frame).cols.contains c)
                   ["open", "high", "low", "close", "volume"] } "volume").n = frame.n by
        split
        · rfl
        · exact addCol_n _ _]
    rw [if_neg (Nat.not_lt.mpr h2)]
    exact ⟨_, rfl⟩

/-- Witness for C10: a 50-row frame passes the fetcher's formatting but
is rejected by both runners. -/
theorem C10_insufficient_data_witness :
    run_backtestingpy envBPY50 "prices.csv" "code" "1h" =
      .failure "Insufficient data for backtesting"
        (envBPY50.raiseTb "Insufficient data for backtesting") ∧
    run_backtrader (B := Unit) envBTR50 "prices.csv" "code" "1h" =
      .failure "Insufficient data for backtesting"
        (envBTR50.raiseTb "Insufficient data for backtesting") ∧
    ∃ out, format_data_for_backtesting fmtEnvOk (testFrame 50) = .ok out :=
  ⟨(C10_insufficient_data envBPY50 envBTR50 fmtEnvOk "prices.csv" "code" "1h"
      (testFrame 50) { cols := ["open", "high", "low", "close", "volume"], n := 50 }
      (testFrame 50)).1 rfl (by decide),
   (C10_insufficient_data envBPY50 envBTR50 fmtEnvOk "prices.csv" "code" "1h"
      (testFrame 50) { cols := ["open", "high", "low", "close", "volume"], n := 50 }
      (testFrame 50)).2.1 rfl rfl (by decide) (by decide),
   (C10_insufficient_data envBPY50 envBTR50 fmtEnvOk "prices.csv" "code" "1h"
      (testFrame 50) { cols := ["open", "high", "low", "close", "volume"], n := 50 }
      (testFrame 50)).2.2 rfl (by decide)⟩

/-! ## C7: the fetch cache -/

/-- C7: when the computed cache file exists and parses to a non-empty
frame, `fetch_data` returns that file's formatted contents without
querying the provider and without writing; the provider is queried only
on a cache miss; and a successful non-empty provider result is written to
the cache file and returned formatted. -/
theorem C7_fetch_cache {D : Type} (env : FetchEnv D) (symbol : String)
    (sd ed : Option D) (tf : String) :
    (∀ data : Frame, env.fileExists (cacheFileName env symbol sd ed) = true →
      env.readCache (cacheFileName env symbol sd ed) = .ok data →
      data.empty = false →
      fetch_data env symbol sd ed tf =
        ⟨format_data_for_backtesting env.fmt data, false, []⟩) ∧
    ((fetch_data env symbol sd ed tf).providerQueried = true →
      ¬ (env.fileExists (cacheFileName env symbol sd ed) = true ∧
         ∃ data : Frame, env.readCache (cacheFileName env symbol sd ed) = .ok data ∧
           data.empty = false)) ∧
    (∀ d2 : Frame, env.fileExists (cacheFileName env symbol sd ed) = false →
      env.provider (DataFetcher.normalizeStr symbol)
        (env.fmtDate (fetchDates env sd ed).1)
        (env.fmtDate (fetchDates env sd ed).2) tf = some d2 →
      d2.empty = false →
      env.writeCsv (cacheFileName env symbol sd ed) = .ok () →
      fetch_data env symbol sd ed tf =
        ⟨format_data_for_backtesting env.fmt d2, true,
          [cacheFileName env symbol sd ed]⟩) := by
  have ha : ∀ data : Frame,
      env.fileExists (cacheFileName env symbol sd ed) = true →
      env.readCache (cacheFileName env symbol sd ed) = .ok data →
      data.empty = false →
      fetch_data env symbol sd ed tf =
        ⟨format_data_for_backtesting env.fmt data, false, []⟩ := by
    intro data hex hrd hne
    unfold fetch_data
    dsimp only
    rw [show env.cache_dir ++ "/" ++ DataFetcher.normalizeStr symbol ++ "_" ++
          env.fmtDate (fetchDates env sd ed).1 ++ "_" ++
          env.fmtDate (fetchDates env sd ed).2 ++ ".csv" =
        cacheFileName env symbol sd ed from rfl]
    rw [if_pos hex, hrd]
    dsimp only
    rw [if_pos hne]
  refine ⟨ha, ?_, ?_⟩
  · intro hpq
    rintro ⟨hex, data, hrd, hne⟩
    rw [ha data hex hrd hne] at hpq
    exact Bool.noConfusion hpq
  · intro d2 hex hprov hne hw
    unfold fetch_data
    dsimp only
    rw [show env.cache_dir ++ "/" ++ DataFetcher.normalizeStr symbol ++ "_" ++
          env.fmtDate (fetchDates env sd ed).1 ++ "_" ++
          env.fmtDate (fetchDates env sd ed).2 ++ ".csv" =
        cacheFileName env symbol sd ed from rfl]
    rw [if_neg (by rw [hex]; exact Bool.false_ne_true)]
    rw [hprov]
    dsimp only
    rw [if_pos hne, hw]

/-- Witness for C7: a concrete cache hit returns the cached frame's
formatted contents without a provider query, and a concrete cache miss
queries the provider and writes the fetched frame back. -/
theorem C7_fetch_cache_witness :
    fetch_data fetchEnvHit "btc/usd" none none "1d" =
      ⟨format_data_for_backtesting fmtEnvOk (testFrame 50), false, []⟩ ∧
    fetch_data fetchEnvMiss "btc/usd" none none "1d" =
      ⟨format_data_for_backtesting fmtEnvOk (testFrame 50), true,
        [cacheFileName fetchEnvMiss "btc/usd" none none]⟩ :=
  ⟨(C7_fetch_cache fetchEnvHit "btc/usd" none none "1d").1 (testFrame 50)
      rfl rfl rfl,
   (C7_fetch_cache fetchEnvMiss "btc/usd" none none "1d").2.2 (testFrame 50)
      rfl rfl rfl rfl⟩

/-! ## C2, C8: what the compiler emits -/

/-- `String.append` acts as list append on the underlying characters. -/
theorem strAppend_data (a b : String) : (a ++ b).data = a.data ++ b.data := rfl

/-- A prefix of `a` is a prefix of `a ++ b`. -/
theorem isPrefixOf_append_of {p a : List Char} (h : p.isPrefixOf a = true)
    (b : List Char) : p.isPrefixOf (a ++ b) = true :=
  List.isPrefixOf_iff_prefix.mpr
    ((List.isPrefixOf_iff_prefix.mp h).trans (List.prefix_append a b))

/-- Counterexample to C2 as stated: a DSL selecting the `backtestingpy`
framework compiles to source that imports and subclasses `backtrader`,
and flipping the framework field does not change the output at all. -/
theorem C2_counterexample :
    dslBPY.framework = Framework.backtestingpy ∧
    ("import backtrader as bt\n\nclass GeneratedStrategy(bt.Strategy):\n".data).isPrefixOf
      (compile_btp dslBPY).data = true ∧
    compile_btp dslBPY = compile_btp { dslBPY with framework := .backtrader } :=
  ⟨rfl, by decide, rfl⟩

/-- C2 (amended): `compile_btp` ignores the DSL's `framework` field
entirely and always emits backtrader source whose text begins with the
backtrader import and the declaration of a strategy class named
`GeneratedStrategy` subclassing `bt.Strategy`. -/
theorem C2_amended (dsl : DSL) :
    ("import backtrader as bt\n\nclass GeneratedStrategy(bt.Strategy):\n".data).isPrefixOf
      (compile_btp dsl).data = true ∧
    compile_btp dsl = compile_btp { dsl with framework := .backtrader } ∧
    compile_btp dsl = compile_btp { dsl with framework := .backtestingpy } := by
  refine ⟨?_, ?_, ?_⟩
  · unfold compile_btp strategyTemplate
    dsimp only
    simp only [strAppend_data]
    apply isPrefixOf_append_of
    apply isPrefixOf_append_of
    apply isPrefixOf_append_of
    apply isPrefixOf_append_of
    apply isPrefixOf_append_of
    apply isPrefixOf_append_of
    apply isPrefixOf_append_of
    apply isPrefixOf_append_of
    apply isPrefixOf_append_of
    apply isPrefixOf_append_of
    decide
  · cases dsl; rfl
  · cases dsl; rfl

/-- C8: a signal left unset (`None`) or empty compiles to the literal
`False` in its slot of the generated `next()` method (so that branch of
the strategy can never fire: its guard is `if False and ...` /
`if False:`); the compiled module is exactly the fixed template with
`False` substituted for that signal. -/
theorem C8_empty_signal_false (dsl : DSL) :
    (conv dsl.indicators "".data = "False".data) ∧
    ((dsl.signals.exit_long = none ∨ dsl.signals.exit_long = some "") →
      compile_btp dsl = strategyTemplate (indicatorCode dsl.indicators)
        "False"
        (String.mk (conv dsl.indicators (dsl.signals.exit_short.getD "").data))
        (String.mk (conv dsl.indicators (dsl.signals.entry_long.getD "").data))
        (String.mk (conv dsl.indicators (dsl.signals.entry_short.getD "").data))) ∧
    ((dsl.signals.exit_short = none ∨ dsl.signals.exit_short = some "") →
      compile_btp dsl = strategyTemplate (indicatorCode dsl.indicators)
        (String.mk (conv dsl.indicators (dsl.signals.exit_long.getD "").data))
        "False"
        (String.mk (conv dsl.indicators (dsl.signals.entry_long.getD "").data))
        (String.mk (conv dsl.indicators (dsl.signals.entry_short.getD "").data))) ∧
    ((dsl.signals.entry_long = none ∨ dsl.signals.entry_long = some "") →
      compile_btp dsl = strategyTemplate (indicatorCode dsl.indicators)
        (String.mk (conv dsl.indicators (dsl.signals.exit_long.getD "").data))
        (String.mk (conv dsl.indicators (dsl.signals.exit_short.getD "").data))
        "False"
        (String.mk (conv dsl.indicators (dsl.signals.entry_short.getD "").data))) ∧
    ((dsl.signals.entry_short = none ∨ dsl.signals.entry_short = some "") →
      compile_btp dsl = strategyTemplate (indicatorCode dsl.indicators)
        (String.mk (conv dsl.indicators (dsl.signals.exit_long.getD "").data))
        (String.mk (conv dsl.indicators (dsl.signals.exit_short.getD "").data))
        (String.mk (conv dsl.indicators (dsl.signals.entry_long.getD "").data))
        "False") := by
  refine ⟨rfl, ?_, ?_, ?_, ?_⟩ <;>
    (rintro (h | h) <;> (unfold compile_btp; rw [h]; rfl))

/-- Witness for C8: a DSL with no signals set compiles with `False` in
the `exit_long` slot. -/
theorem C8_empty_signal_false_witness :
    compile_btp dslBPY = strategyTemplate (indicatorCode dslBPY.indicators)
      "False"
      (String.mk (conv dslBPY.indicators (dslBPY.signals.exit_short.getD "").data))
      (String.mk (conv dslBPY.indicators (dslBPY.signals.entry_long.getD "").data))
      (String.mk (conv dslBPY.indicators (dslBPY.signals.entry_short.getD "").data)) :=
  (C8_empty_signal_false dslBPY).2.1 (Or.inl rfl)

/-! ## C1: the autofix loop -/

/-- The loop performs at most one runner invocation per remaining
iteration. -/
theorem autofixGo_calls_le {α B γ : Type} (runner : String → RunResult α B γ)
    (repair : String → String → String → Except String String)
    (maxA : Nat) :
    ∀ rem code acc, (autofixGo runner repair maxA rem code acc).2 ≤ rem := by
  intro rem
  induction rem with
  | zero => intro code acc; exact Nat.le_refl 0
  | succ n ih =>
    intro code acc
    unfold autofixGo
    cases hr : runner code with
    | success m t e f => dsimp only; exact Nat.succ_le_succ (Nat.zero_le n)
    | failure err tb =>
      dsimp only
      cases n with
      | zero => dsimp only; exact Nat.le_refl 1
      | succ r =>
        dsimp only
        cases hrep : repair err tb code with
        | ok newCode =>
          dsimp only
          exact Nat.succ_le_succ (ih newCode _)
        | error msg =>
          dsimp only
          omega

/-- When every runner invocation fails, the loop ends in the
`Failed after N attempts` dictionary, having appended one numbered record
per runner invocation (each holding the code it ran and the error and
traceback that run returned), possibly followed by a single
repair-failure record. -/
theorem autofixGo_all_fail {α B γ : Type} (runner : String → RunResult α B γ)
    (repair : String → String → String → Except String String)
    (maxA : Nat) (hfail : ∀ c, (runner c).ok = false) :
    ∀ rem, rem ≤ maxA → ∀ code acc,
      ∃ recs : List AttemptRec,
        recs.length = (autofixGo runner repair maxA rem code acc).2 ∧
        ((autofixGo runner repair maxA rem code acc).1 =
            .failure (acc ++ recs)
              ("Failed after " ++ toString maxA ++ " attempts") ∨
          ∃ extra, (autofixGo runner repair maxA rem code acc).1 =
            .failure (acc ++ recs ++ [extra])
              ("Failed after " ++ toString maxA ++ " attempts")) ∧
        ∀ i (hi : i < recs.length),
          (recs.get ⟨i, hi⟩).attempt = toString (maxA - rem + i + 1) ∧
          runner (recs.get ⟨i, hi⟩).code =
            .failure (recs.get ⟨i, hi⟩).error (recs.get ⟨i, hi⟩).traceback := by
  intro rem
  induction rem with
  | zero =>
    intro _ code acc
    refine ⟨[], rfl, Or.inl ?_, ?_⟩
    · simp [autofixGo]
    · intro i hi; exact absurd hi (by simp)
  | succ n ih =>
    intro hle code acc
    have hrc := hfail code
    cases hr : runner code with
    | success m t e f =>
      rw [hr] at hrc
      exact absurd hrc (by simp [RunResult.ok])
    | failure err tb =>
      unfold autofixGo
      rw [hr]
      dsimp only
      cases n with
      | zero =>
        refine ⟨[⟨toString (maxA - 1 + 1), err, tb, code⟩], rfl, Or.inl rfl, ?_⟩
        intro i hi
        match i, hi with
        | 0, _ =>
          refine ⟨rfl, ?_⟩
          simpa using hr
      | succ r =>
        cases hrep : repair err tb code with
        | error msg =>
          refine ⟨[⟨toString (maxA - (r + 2) + 1), err, tb, code⟩], rfl,
            Or.inr ⟨_, rfl⟩, ?_⟩
          intro i hi
          match i, hi with
          | 0, _ =>
            refine ⟨rfl, ?_⟩
            simpa using hr
        | ok newCode =>
          obtain ⟨recs', hlen', hres', hlab'⟩ :=
            ih (Nat.le_of_succ_le hle) newCode
              (acc ++ [⟨toString (maxA - (r + 2) + 1), err, tb, code⟩])
          refine ⟨⟨toString (maxA - (r + 2) + 1), err, tb, code⟩ :: recs', ?_, ?_, ?_⟩
          · dsimp only
            rw [List.length_cons, hlen']
          · dsimp only
            rcases hres' with hres' | ⟨extra, hres'⟩
            · left
              rw [hres']
              simp
            · right
              refine ⟨extra, ?_⟩
              rw [hres']
              simp
          · intro i hi
            cases i with
            | zero =>
              refine ⟨rfl, ?_⟩
              simpa using hr
            | succ j =>
              have hj : j < recs'.length := by
                simpa using Nat.lt_of_succ_lt_succ hi
              obtain ⟨hlab, hrun⟩ := hlab' j hj
              refine ⟨?_, by simpa using hrun⟩
              show (recs'.get ⟨j, hj⟩).attempt = _
              rw [hlab]
              congr 1
              omega

/-- C1: for every DSL, compile function, CSV path, repair function and
`max_attempts ≥ 1`, `try_run_with_autofix` is a total function (it is
defined by structural recursion on the remaining attempt count) that
invokes the chosen backtest runner at most `max_attempts` times; when
every invocation fails it returns `success=False` with the error
`Failed after {max_attempts} attempts` and an `attempts` list holding, in
order, one record per failed runner invocation — numbered `1, 2, …`,
each carrying the code that ran and the error and traceback that run
produced — possibly followed by one repair-failure record. -/
theorem C1_autofix_bounded {α B γ : Type} (envB : EnvBPY α B γ)
    (envT : EnvBTR α γ) (dsl : DSL) (compileFn : DSL → String)
    (csvPath : String)
    (repair : String → String → String → Except String String)
    (maxAttempts : Nat) (hmax : 1 ≤ maxAttempts) :
    (try_run_with_autofix envB envT dsl compileFn csvPath repair
      maxAttempts).2 ≤ maxAttempts ∧
    ((∀ c : String,
        ((match dsl.framework with
          | .backtrader => run_backtrader (B := B) envT csvPath c dsl.timeframe
          | .backtestingpy =>
            run_backtestingpy envB csvPath c dsl.timeframe) : RunResult α B γ).ok
          = false) →
      ∃ recs : List AttemptRec,
        recs.length = (try_run_with_autofix envB envT dsl compileFn csvPath
          repair maxAttempts).2 ∧
        ((try_run_with_autofix envB envT dsl compileFn csvPath repair
            maxAttempts).1 =
            .failure recs ("Failed after " ++ toString maxAttempts ++ " attempts") ∨
          ∃ extra, (try_run_with_autofix envB envT dsl compileFn csvPath repair
            maxAttempts).1 =
            .failure (recs ++ [extra])
              ("Failed after " ++ toString maxAttempts ++ " attempts")) ∧
        ∀ i (hi : i < recs.length),
          (recs.get ⟨i, hi⟩).attempt = toString (i + 1) ∧
          ((match dsl.framework with
            | .backtrader =>
              run_backtrader (B := B) envT csvPath (recs.get ⟨i, hi⟩).code dsl.timeframe
            | .backtestingpy =>
              run_backtestingpy envB csvPath (recs.get ⟨i, hi⟩).code dsl.timeframe) :
              RunResult α B γ) =
            .failure (recs.get ⟨i, hi⟩).error (recs.get ⟨i, hi⟩).traceback) := by
  constructor
  · unfold try_run_with_autofix
    exact autofixGo_calls_le _ repair maxAttempts maxAttempts (compileFn dsl) []
  · intro hf
    obtain ⟨recs, hlen, hres, hlab⟩ :=
      autofixGo_all_fail
        (fun c => match dsl.framework with
          | .backtrader => run_backtrader (B := B) envT csvPath c dsl.timeframe
          | .backtestingpy => run_backtestingpy envB csvPath c dsl.timeframe)
        repair maxAttempts hf maxAttempts (Nat.le_refl _) (compileFn dsl) []
    refine ⟨recs, hlen, ?_, ?_⟩
    · simpa using hres
    · intro i hi
      obtain ⟨h1, h2⟩ := hlab i hi
      refine ⟨?_, h2⟩
      rw [h1]
      congr 1
      omega

/-- Witness for C1: with a runner whose CSV read always raises and two
allowed attempts, the loop fails after exactly two numbered attempts. -/
theorem C1_autofix_bounded_witness :
    (try_run_with_autofix envBPYfail envBTRfail dslBPY compile_btp
      "prices.csv" (fun _ _ _ => .ok "fixed") 2).2 ≤ 2 ∧
    ∃ recs : List AttemptRec,
      recs.length = (try_run_with_autofix envBPYfail envBTRfail dslBPY
        compile_btp "prices.csv" (fun _ _ _ => .ok "fixed") 2).2 ∧
      ((try_run_with_autofix envBPYfail envBTRfail dslBPY compile_btp
          "prices.csv" (fun _ _ _ => .ok "fixed") 2).1 =
          .failure recs ("Failed after " ++ toString 2 ++ " attempts") ∨
        ∃ extra, (try_run_with_autofix envBPYfail envBTRfail dslBPY compile_btp
          "prices.csv" (fun _ _ _ => .ok "fixed") 2).1 =
          .failure (recs ++ [extra])
            ("Failed after " ++ toString 2 ++ " attempts")) :=
  have h := C1_autofix_bounded envBPYfail envBTRfail dslBPY compile_btp
    "prices.csv" (fun _ _ _ => .ok "fixed") 2 (by decide)
  have h2 := h.2 (fun c => rfl)
  ⟨h.1, h2.choose, h2.choose_spec.1, h2.choose_spec.2.1⟩

/-! ## C6, C9: the symbol normalizer -/

/-- `pyUpperChar` either fixes its argument or yields an uppercase
letter. -/
theorem pyUpperChar_cases (c : Char) :
    pyUpperChar c = c ∨ pyUpperChar c ∈
      ['A', 'B', 'C', 'D', 'E', 'F', 'G', 'H', 'I', 'J', 'K', 'L', 'M',
       'N', 'O', 'P', 'Q', 'R', 'S', 'T', 'U', 'V', 'W', 'X', 'Y', 'Z'] := by
  unfold pyUpperChar
  split <;> simp

/-- `pyUpperChar` fixes uppercase letters. -/
theorem pyUpperChar_fix_upper {c : Char}
    (hc : c ∈ ['A', 'B', 'C', 'D', 'E', 'F', 'G', 'H', 'I', 'J', 'K', 'L',
      'M', 'N', 'O', 'P', 'Q', 'R', 'S', 'T', 'U', 'V', 'W', 'X', 'Y', 'Z']) :
    pyUpperChar c = c := by
  simp only [List.mem_cons, List.not_mem_nil, or_false] at hc
  rcases hc with rfl | rfl | rfl | rfl | rfl | rfl | rfl | rfl | rfl | rfl |
    rfl | rfl | rfl | rfl | rfl | rfl | rfl | rfl | rfl | rfl | rfl | rfl |
    rfl | rfl | rfl | rfl <;> rfl

/-- ASCII uppercasing is idempotent. -/
theorem pyUpperChar_idem (c : Char) : pyUpperChar (pyUpperChar c) = pyUpperChar c := by
  rcases pyUpperChar_cases c with h | h
  · rw [h, h]
  · exact pyUpperChar_fix_upper h

/-- Uppercasing does not change whitespace-ness. -/
theorem pyUpperChar_space (c : Char) : pyIsSpace (pyUpperChar c) = pyIsSpace c := by
  unfold pyUpperChar
  split <;> rfl

/-- Only `/` uppercases to `/`. -/
theorem pyUpperChar_eq_slash {c : Char} (h : pyUpperChar c = '/') : c = '/' := by
  unfold pyUpperChar at h
  split at h <;> simp_all

/-- Only `_` uppercases to `_`. -/
theorem pyUpperChar_eq_underscore {c : Char} (h : pyUpperChar c = '_') : c = '_' := by
  unfold pyUpperChar at h
  split at h <;> simp_all

/-- A letter is not whitespace. -/
theorem alpha_not_space {c : Char} (h : c.isAlpha = true) : pyIsSpace c = false := by
  by_contra hc
  rw [Bool.not_eq_false] at hc
  unfold pyIsSpace at hc
  simp only [Bool.or_eq_true, decide_eq_true_eq] at hc
  rcases hc with ((((rfl | rfl) | rfl) | rfl) | rfl) | rfl <;>
    exact absurd h (by decide)

/-- A letter is distinct from any non-letter character. -/
theorem alpha_ne_of {c : Char} (h : c.isAlpha = true) (d : Char)
    (hd : d.isAlpha = false) : c ≠ d := by
  intro he
  rw [he, hd] at h
  exact Bool.noConfusion h

/-- `dropWhile` is the identity when no element satisfies the predicate. -/
theorem dropWhile_eq_self_of_none {p : Char → Bool} {l : List Char}
    (h : ∀ c ∈ l, p c = false) : l.dropWhile p = l := by
  induction l with
  | nil => rfl
  | cons a as ih =>
    rw [List.dropWhile_cons]
    rw [h a (List.mem_cons_self a as)]
    simp only [Bool.false_eq_true, if_false]

/-- The head surviving a `dropWhile` fails the predicate. -/
theorem dropWhile_head_false (p : Char → Bool) (l : List Char) :
    ∀ c, (l.dropWhile p).head? = some c → p c = false := by
  induction l with
  | nil => intro c hc; exact absurd hc (by simp)
  | cons a as ih =>
    intro c hc
    rw [List.dropWhile_cons] at hc
    by_cases hp : p a = true
    · rw [hp] at hc
      simp only [if_true] at hc
      exact ih c hc
    · simp only [Bool.not_eq_true] at hp
      rw [hp] at hc
      simp only [Bool.false_eq_true, if_false, List.head?_cons,
        Option.some.injEq] at hc
      rw [← hc]
      exact hp

/-- `pyStrip` is the identity on whitespace-free strings. -/
theorem pyStrip_eq_self_of_none {l : List Char}
    (h : ∀ c ∈ l, pyIsSpace c = false) : pyStrip l = l := by
  unfold pyStrip
  rw [dropWhile_eq_self_of_none h]
  rw [dropWhile_eq_self_of_none (by intro c hc; exact h c (List.mem_reverse.mp hc))]
  exact List.reverse_reverse l

/-- `pyStrip` yields a sublist. -/
theorem pyStrip_sublist (l : List Char) : (pyStrip l).Sublist l := by
  unfold pyStrip
  have h1 : (l.dropWhile pyIsSpace).Sublist l := List.dropWhile_sublist pyIsSpace
  have h2 : (((l.dropWhile pyIsSpace).reverse.dropWhile pyIsSpace).reverse).Sublist
      (l.dropWhile pyIsSpace) := by
    have h3 := (List.dropWhile_sublist (l := (l.dropWhile pyIsSpace).reverse) pyIsSpace).reverse
    simpa using h3
  exact h2.trans h1

/-- `pyStrip` starts at the first non-whitespace character of its
result's source, so a second strip removes nothing. -/
theorem pyStrip_idem (l : List Char) : pyStrip (pyStrip l) = pyStrip l := by
  by_cases h0 : pyStrip l = []
  · rw [h0]; rfl
  · have hpre : pyStrip l <+: l.dropWhile pyIsSpace := by
      unfold pyStrip
      have h : ((l.dropWhile pyIsSpace).reverse.dropWhile pyIsSpace) <:+
          (l.dropWhile pyIsSpace).reverse := List.dropWhile_suffix pyIsSpace
      have h2 := @List.reverse_suffix Char
        (((l.dropWhile pyIsSpace).reverse.dropWhile pyIsSpace).reverse)
        (l.dropWhile pyIsSpace)
      rw [List.reverse_reverse] at h2
      exact h2.mp h
    have hdw : (pyStrip l).dropWhile pyIsSpace = pyStrip l := by
      cases hs : pyStrip l with
      | nil => rfl
      | cons a rest =>
        have hhead : (l.dropWhile pyIsSpace).head? = some a := by
          obtain ⟨t, ht⟩ := hpre
          rw [← ht, hs]
          rfl
        have hpa : pyIsSpace a = false :=
          dropWhile_head_false pyIsSpace l a hhead
        rw [List.dropWhile_cons, hpa]
        simp only [Bool.false_eq_true, if_false]
    show (((pyStrip l).dropWhile pyIsSpace).reverse.dropWhile pyIsSpace).reverse = pyStrip l
    rw [hdw]
    unfold pyStrip
    rw [List.reverse_reverse, List.dropWhile_idempotent]

/-- `pySplit` never returns an empty list of pieces. -/
theorem pySplit_ne_nil (sep : Char) (l : List Char) : pySplit sep l ≠ [] := by
  cases l with
  | nil => simp [pySplit]
  | cons c rest =>
    unfold pySplit
    by_cases hc : c = sep
    · rw [if_pos hc]; simp
    · rw [if_neg hc]
      cases pySplit sep rest <;> simp

/-- Characters of a split piece come from the split string. -/
theorem mem_of_mem_pySplit {sep : Char} {l : List Char} :
    ∀ p ∈ pySplit sep l, ∀ c ∈ p, c ∈ l := by
  induction l with
  | nil =>
    intro p hp c hc
    simp [pySplit] at hp
    subst hp
    exact absurd hc (by simp)
  | cons a as ih =>
    intro p hp c hc
    unfold pySplit at hp
    by_cases ha : a = sep
    · rw [if_pos ha] at hp
      rcases List.mem_cons.mp hp with rfl | hp
      · exact absurd hc (by simp)
      · exact List.mem_cons_of_mem a (ih p hp c hc)
    · rw [if_neg ha] at hp
      cases hs : pySplit sep as with
      | nil => exact absurd hs (pySplit_ne_nil sep as)
      | cons q qs =>
        rw [hs] at hp
        rcases List.mem_cons.mp hp with rfl | hp
        · rcases List.mem_cons.mp hc with rfl | hc
          · exact List.mem_cons_self _ _
          · exact List.mem_cons_of_mem a
              (ih q (hs ▸ List.mem_cons_self q qs) c hc)
        · exact List.mem_cons_of_mem a
            (ih p (hs ▸ List.mem_cons_of_mem q hp) c hc)

/-- The separator does not occur inside a split piece. -/
theorem sep_not_mem_pySplit {sep : Char} {l : List Char} :
    ∀ p ∈ pySplit sep l, sep ∉ p := by
  induction l with
  | nil =>
    intro p hp
    simp [pySplit] at hp
    subst hp
    simp
  | cons a as ih =>
    intro p hp
    unfold pySplit at hp
    by_cases ha : a = sep
    · rw [if_pos ha] at hp
      rcases List.mem_cons.mp hp with rfl | hp
      · simp
      · exact ih p hp
    · rw [if_neg ha] at hp
      cases hs : pySplit sep as with
      | nil => exact absurd hs (pySplit_ne_nil sep as)
      | cons q qs =>
        rw [hs] at hp
        rcases List.mem_cons.mp hp with rfl | hp
        · intro hmem
          rcases List.mem_cons.mp hmem with he | hmem
          · exact ha he.symm
          · exact ih q (hs ▸ List.mem_cons_self q qs) hmem
        · exact ih p (hs ▸ List.mem_cons_of_mem q hp)

/-- Filtering out a separator-free predicate distributes over the split
pieces. -/
theorem join_map_filter_pySplit (P : Char → Bool) {sep : Char}
    (hP : P sep = false) (l : List Char) :
    ((pySplit sep l).map (List.filter P)).flatten = l.filter P := by
  induction l with
  | nil => rfl
  | cons a as ih =>
    unfold pySplit
    by_cases ha : a = sep
    · rw [if_pos ha]
      subst ha
      simp only [List.map_cons, List.flatten_cons, List.filter_nil,
        List.nil_append, ih, List.filter_cons, hP]
      simp
    · rw [if_neg ha]
      cases hs : pySplit sep as with
      | nil => exact absurd hs (pySplit_ne_nil sep as)
      | cons q qs =>
        rw [hs] at ih
        simp only [List.map_cons, List.flatten_cons] at ih ⊢
        rw [List.filter_cons, List.filter_cons]
        cases hPa : P a
        · simpa using ih
        · simpa using ih

/-- Empty pieces contribute nothing to a join of mapped pieces when the
map sends `[]` to `[]`. -/
theorem join_map_filter_ne_nil (f : List Char → List Char)
    (hf : f [] = []) (ps : List (List Char)) :
    ((ps.filter (fun p => p ≠ [])).map f).flatten = (ps.map f).flatten := by
  induction ps with
  | nil => rfl
  | cons p ps ih =>
    rw [List.filter_cons]
    by_cases hp : p = []
    · subst hp
      simp_all [hf]
    · simp_all [hp]

/-- When the split of `u` on `sep` has exactly the non-empty pieces
`p0, p1`, any separator-killing filter of `u` splits accordingly. -/
theorem filter_eq_two_parts {sep : Char} {u p0 p1 : List Char}
    (hparts : (pySplit sep u).filter (fun p => p ≠ []) = [p0, p1])
    (P : Char → Bool) (hP : P sep = false) :
    u.filter P = p0.filter P ++ p1.filter P := by
  rw [← join_map_filter_pySplit P hP u]
  rw [← join_map_filter_ne_nil (List.filter P) rfl (pySplit sep u)]
  rw [hparts]
  simp

/-- Splitting `p0 ++ sep :: p1` with `sep ∉ p0` peels off `p0`. -/
theorem pySplit_append_sep (sep : Char) {p0 : List Char} (h : sep ∉ p0)
    (p1 : List Char) : pySplit sep (p0 ++ sep :: p1) = p0 :: pySplit sep p1 := by
  induction p0 with
  | nil =>
    simp only [List.nil_append]
    rw [show pySplit sep (sep :: p1) = [] :: pySplit sep p1 by
      simp [pySplit]]
  | cons a p0 ih =>
    have ha : a ≠ sep := fun he => h (he ▸ List.mem_cons_self a p0)
    have hrest : sep ∉ p0 := fun hm => h (List.mem_cons_of_mem a hm)
    rw [List.cons_append]
    rw [show pySplit sep (a :: (p0 ++ sep :: p1)) =
        (match pySplit sep (p0 ++ sep :: p1) with
         | [] => [[a]]
         | p :: ps => (a :: p) :: ps) by
      simp [pySplit, ha]]
    rw [ih hrest]

/-- Splitting a separator-free string yields one piece. -/
theorem pySplit_of_not_mem {sep : Char} {l : List Char} (h : sep ∉ l) :
    pySplit sep l = [l] := by
  induction l with
  | nil => rfl
  | cons a as ih =>
    have ha : a ≠ sep := fun he => h (he ▸ List.mem_cons_self a as)
    have hrest : sep ∉ as := fun hm => h (List.mem_cons_of_mem a hm)
    unfold pySplit
    rw [if_neg ha, ih hrest]

/-- Characters of the `upper` form are uppercased non-space characters of
the symbol. -/
theorem mem_upperForm {symbol : List Char} {c : Char}
    (hc : c ∈ DataFetcher.upperForm symbol) :
    ∃ d ∈ symbol, c = pyUpperChar d ∧ c ≠ ' ' := by
  unfold DataFetcher.upperForm removeChar pyUpper at hc
  obtain ⟨hm, hne⟩ := List.mem_filter.mp hc
  obtain ⟨d, hd, hdc⟩ := List.mem_map.mp hm
  exact ⟨d, (pyStrip_sublist symbol).mem hd, hdc.symm, by simpa using hne⟩

/-- With only plain spaces as whitespace in the symbol, the `upper` form
is whitespace-free. -/
theorem upperForm_no_space {symbol : List Char}
    (h1 : ∀ c ∈ symbol, pyIsSpace c = true → c = ' ') :
    ∀ c ∈ DataFetcher.upperForm symbol, pyIsSpace c = false := by
  intro c hc
  obtain ⟨d, hd, rfl, hne⟩ := mem_upperForm hc
  by_contra hsp
  rw [Bool.not_eq_false, pyUpperChar_space] at hsp
  have := h1 d hd hsp
  subst this
  exact hne rfl

/-- Characters of the `upper` form are fixed by further uppercasing. -/
theorem upperForm_stable {symbol : List Char} :
    ∀ c ∈ DataFetcher.upperForm symbol, pyUpperChar c = c := by
  intro c hc
  obtain ⟨d, _, rfl, _⟩ := mem_upperForm hc
  exact pyUpperChar_idem d

/-- A slash in the `upper` form comes from a slash in the symbol. -/
theorem slash_mem_symbol {symbol : List Char}
    (h : '/' ∈ DataFetcher.upperForm symbol) : '/' ∈ symbol := by
  obtain ⟨d, hd, he, _⟩ := mem_upperForm h
  rw [pyUpperChar_eq_slash he.symm] at hd
  exact hd

/-- An underscore in the `upper` form comes from an underscore in the
symbol. -/
theorem underscore_mem_symbol {symbol : List Char}
    (h : '_' ∈ DataFetcher.upperForm symbol) : '_' ∈ symbol := by
  obtain ⟨d, hd, he, _⟩ := mem_upperForm h
  rw [pyUpperChar_eq_underscore he.symm] at hd
  exact hd

/-- The `upper` form is the identity on whitespace-free, uppercase-stable
strings. -/
theorem upperForm_eq_self {l : List Char}
    (hns : ∀ c ∈ l, pyIsSpace c = false)
    (hst : ∀ c ∈ l, pyUpperChar c = c) :
    DataFetcher.upperForm l = l := by
  unfold DataFetcher.upperForm removeChar pyUpper
  rw [pyStrip_eq_self_of_none hns]
  have hmap : l.map pyUpperChar = l := by
    induction l with
    | nil => rfl
    | cons a as ih =>
      rw [List.map_cons, hst a (List.mem_cons_self a as)]
      rw [ih (fun c hc => hns c (List.mem_cons_of_mem a hc))
          (fun c hc => hst c (List.mem_cons_of_mem a hc))]
  rw [hmap]
  refine List.filter_eq_self.mpr ?_
  intro a ha
  have := hns a ha
  simp only [decide_eq_true_eq]
  intro he
  subst he
  exact Bool.noConfusion this

/-- Branch equation: a stripped symbol in Yahoo-native form (leading `^`
or trailing `=X`) is returned as stripped. -/
theorem norm_native {x : List Char}
    (h : (startsWithChar '^' (pyStrip x) || endsEqX (pyStrip x)) = true) :
    DataFetcher.normalize_symbol_for_yfinance x = pyStrip x := by
  unfold DataFetcher.normalize_symbol_for_yfinance
  by_cases hx : x = []
  · subst hx
    rw [if_pos rfl]
    rfl
  · rw [if_neg hx]
    dsimp only
    by_cases hs : pyStrip x = []
    · rw [if_pos hs, hs]
    · rw [if_neg hs, if_pos h]

/-- Branch equation: the already-hyphenated case returns the `upper`
form. -/
theorem norm_hyph2 {x : List Char} (hx : x ≠ []) (hs : pyStrip x ≠ [])
    (hnat : (startsWithChar '^' (pyStrip x) || endsEqX (pyStrip x)) = false)
    (h2 : ('-' ∈ DataFetcher.upperForm x) ∧
      (pySplit '-' (DataFetcher.upperForm x)).length = 2) :
    DataFetcher.normalize_symbol_for_yfinance x = DataFetcher.upperForm x := by
  unfold DataFetcher.normalize_symbol_for_yfinance
  rw [if_neg hx]
  dsimp only
  rw [if_neg hs, if_neg (by rw [hnat]; exact Bool.false_ne_true)]
  unfold DataFetcher.upperForm at h2 ⊢
  rw [if_pos h2]

/-- Branch equation: the six-letter case returns the crypto or FX
form. -/
theorem norm_six {x : List Char} (hx : x ≠ []) (hs : pyStrip x ≠ [])
    (hnat : (startsWithChar '^' (pyStrip x) || endsEqX (pyStrip x)) = false)
    (h2 : ¬ (('-' ∈ DataFetcher.upperForm x) ∧
      (pySplit '-' (DataFetcher.upperForm x)).length = 2))
    (h6 : (DataFetcher.mergedForm x).length = 6 ∧
      (DataFetcher.mergedForm x).all Char.isAlpha = true) :
    DataFetcher.normalize_symbol_for_yfinance x =
      (if (DataFetcher.mergedForm x).take 3 ∈ DataFetcher.crypto_bases ∨
          (DataFetcher.mergedForm x).drop 3 ∈ DataFetcher.cryptoQuotes
       then (DataFetcher.mergedForm x).take 3 ++ '-' :: (DataFetcher.mergedForm x).drop 3
       else (DataFetcher.mergedForm x).take 3 ++ (DataFetcher.mergedForm x).drop 3 ++ ['=', 'X']) := by
  unfold DataFetcher.normalize_symbol_for_yfinance
  rw [if_neg hx]
  dsimp only
  rw [if_neg hs, if_neg (by rw [hnat]; exact Bool.false_ne_true)]
  unfold DataFetcher.mergedForm at h6 ⊢
  unfold DataFetcher.upperForm at h2 h6 ⊢
  rw [if_neg h2, if_pos h6]

/-- Branch equation: past the six-letter case, the result is the
separator loop's outcome, defaulting to the `upper` form. -/
theorem norm_sep_fallback {x : List Char} (hx : x ≠ []) (hs : pyStrip x ≠ [])
    (hnat : (startsWithChar '^' (pyStrip x) || endsEqX (pyStrip x)) = false)
    (h2 : ¬ (('-' ∈ DataFetcher.upperForm x) ∧
      (pySplit '-' (DataFetcher.upperForm x)).length = 2))
    (h6 : ¬ ((DataFetcher.mergedForm x).length = 6 ∧
      (DataFetcher.mergedForm x).all Char.isAlpha = true)) :
    DataFetcher.normalize_symbol_for_yfinance x =
      (match DataFetcher.sepSplitTry '/' (DataFetcher.upperForm x) with
       | some r => r
       | none =>
         match DataFetcher.sepSplitTry '_' (DataFetcher.upperForm x) with
         | some r => r
         | none => DataFetcher.upperForm x) := by
  unfold DataFetcher.normalize_symbol_for_yfinance
  rw [if_neg hx]
  dsimp only
  rw [if_neg hs, if_neg (by rw [hnat]; exact Bool.false_ne_true)]
  unfold DataFetcher.mergedForm at h6
  unfold DataFetcher.upperForm at h2 h6 ⊢
  rw [if_neg h2, if_neg h6]

/-- A separator absent from the string makes its split attempt fail. -/
theorem sepSplitTry_not_mem {sep : Char} {u : List Char} (h : sep ∉ u) :
    DataFetcher.sepSplitTry sep u = none := by
  unfold DataFetcher.sepSplitTry
  rw [if_neg h]

/-- Inversion of a successful split attempt. -/
theorem sepSplitTry_some {sep : Char} {u r : List Char}
    (h : DataFetcher.sepSplitTry sep u = some r) :
    sep ∈ u ∧ ∃ p0 p1 : List Char,
      (pySplit sep u).filter (fun p => p ≠ []) = [p0, p1] ∧
      2 ≤ p1.length ∧ p1.length ≤ 5 ∧ r = p0 ++ '-' :: p1 := by
  unfold DataFetcher.sepSplitTry at h
  by_cases hm : sep ∈ u
  · rw [if_pos hm] at h
    refine ⟨hm, ?_⟩
    cases hps : (pySplit sep u).filter (fun p => p ≠ []) with
    | nil => rw [hps] at h; exact Option.noConfusion h
    | cons p0 rest =>
      cases rest with
      | nil => rw [hps] at h; exact Option.noConfusion h
      | cons p1 rest2 =>
        cases rest2 with
        | nil =>
          rw [hps] at h
          dsimp only at h
          split at h
          · rename_i hlen
            exact ⟨p0, p1, rfl, hlen.1, hlen.2, (Option.some.injEq _ _ ▸ h).symm⟩
          · exact Option.noConfusion h
        | cons q qs => rw [hps] at h; exact Option.noConfusion h
  · rw [if_neg hm] at h
    exact Option.noConfusion h

/-- A whitespace-free, uppercase-stable string that either is already a
two-piece hyphenation or falls through every later branch is a fixed
point of the normalizer. -/
theorem norm_fix_clean {u : List Char}
    (hns : ∀ c ∈ u, pyIsSpace c = false)
    (hst : ∀ c ∈ u, pyUpperChar c = c)
    (hbr : (('-' ∈ u) ∧ (pySplit '-' u).length = 2) ∨
      (¬ (('-' ∈ u) ∧ (pySplit '-' u).length = 2) ∧
       ¬ ((removeChar '-' (removeChar '_' (removeChar '/' u))).length = 6 ∧
          (removeChar '-' (removeChar '_' (removeChar '/' u))).all Char.isAlpha = true) ∧
       DataFetcher.sepSplitTry '/' u = none ∧
       DataFetcher.sepSplitTry '_' u = none)) :
    DataFetcher.normalize_symbol_for_yfinance u = u := by
  by_cases hu : u = []
  · subst hu; decide
  · have hsu : pyStrip u = u := pyStrip_eq_self_of_none hns
    have hufu : DataFetcher.upperForm u = u := upperForm_eq_self hns hst
    by_cases hnat : (startsWithChar '^' (pyStrip u) || endsEqX (pyStrip u)) = true
    · rw [norm_native hnat, hsu]
    · have hnat' : (startsWithChar '^' (pyStrip u) || endsEqX (pyStrip u)) = false := by
        simpa using hnat
      rcases hbr with hb | ⟨hnb, h6n, hsp1, hsp2⟩
      · rw [norm_hyph2 hu (by rw [hsu]; exact hu) hnat'
          (by rw [hufu]; exact hb), hufu]
      · rw [norm_sep_fallback hu (by rw [hsu]; exact hu) hnat'
          (by rw [hufu]; exact hnb)
          (by unfold DataFetcher.mergedForm; rw [hufu]; exact h6n)]
        rw [hufu, hsp1, hsp2]

/-- The three separator removals of `merged` are one filter. -/
theorem removeAll_eq_filter (w : List Char) :
    removeChar '-' (removeChar '_' (removeChar '/' w)) =
      w.filter (fun c => decide (c ≠ '-') && decide (c ≠ '_') && decide (c ≠ '/')) := by
  unfold removeChar
  rw [List.filter_filter, List.filter_filter]

/-- `merged` is built from characters of `upper`. -/
theorem merged_sublist (x : List Char) :
    (DataFetcher.mergedForm x).Sublist (DataFetcher.upperForm x) := by
  unfold DataFetcher.mergedForm removeChar
  exact (List.filter_sublist _).trans ((List.filter_sublist _).trans (List.filter_sublist _))

/-- Any string extended by `=X` passes the `endswith("=X")` test. -/
theorem endsEqX_append (l : List Char) : endsEqX (l ++ ['=', 'X']) = true := by
  simp [endsEqX, List.isSuffixOf]

/-- The output of a successful separator split is a fixed point of the
normalizer, provided the string being split is whitespace-free,
uppercase-stable, not six-letter after separator removal, and free of the
separators the split does not remove. -/
theorem norm_fix_sep {sep : Char} {u r : List Char}
    (hns : ∀ c ∈ u, pyIsSpace c = false)
    (hst : ∀ c ∈ u, pyUpperChar c = c)
    (h6n : ¬ ((removeChar '-' (removeChar '_' (removeChar '/' u))).length = 6 ∧
        (removeChar '-' (removeChar '_' (removeChar '/' u))).all Char.isAlpha = true))
    (hPsep : (fun c => decide (c ≠ '-') && decide (c ≠ '_') && decide (c ≠ '/')) sep = false)
    (hother : ∀ d ∈ u, d = '/' ∨ d = '_' → d = sep)
    (hsome : DataFetcher.sepSplitTry sep u = some r) :
    DataFetcher.normalize_symbol_for_yfinance r = r := by
  obtain ⟨hmem, p0, p1, hps, hlen1, _hlen2, rfl⟩ := sepSplitTry_some hsome
  have hp0 : p0 ∈ pySplit sep u := by
    have h := hps ▸ List.mem_cons_self p0 [p1]
    exact (List.mem_filter.mp h).1
  have hp1 : p1 ∈ pySplit sep u := by
    have h := hps ▸ List.mem_cons_of_mem p0 (List.mem_cons_self p1 [])
    exact (List.mem_filter.mp h).1
  have hchars : ∀ c ∈ p0 ++ '-' :: p1, c = '-' ∨ c ∈ u := by
    intro c hc
    rcases List.mem_append.mp hc with hc0 | hc1
    · exact Or.inr (mem_of_mem_pySplit p0 hp0 c hc0)
    · rcases List.mem_cons.mp hc1 with rfl | hc2
      · exact Or.inl rfl
      · exact Or.inr (mem_of_mem_pySplit p1 hp1 c hc2)
  have hsepfree : ∀ d, (d = '/' ∨ d = '_') → d ∉ p0 ++ '-' :: p1 := by
    intro d hd hmem'
    rcases hchars d hmem' with rfl | hdu
    · rcases hd with h | h <;> exact absurd h (by decide)
    · have hds : d = sep := hother d hdu hd
      subst hds
      rcases List.mem_append.mp hmem' with hc0 | hc1
      · exact sep_not_mem_pySplit p0 hp0 hc0
      · rcases List.mem_cons.mp hc1 with he | hc2
        · rcases hd with h | h <;> (rw [he] at h; exact absurd h (by decide))
        · exact sep_not_mem_pySplit p1 hp1 hc2
  apply norm_fix_clean
  · intro c hc
    rcases hchars c hc with rfl | hcu
    · decide
    · exact hns c hcu
  · intro c hc
    rcases hchars c hc with rfl | hcu
    · rfl
    · exact hst c hcu
  · by_cases hhy : ('-' ∈ p0 ++ '-' :: p1) ∧
        (pySplit '-' (p0 ++ '-' :: p1)).length = 2
    · exact Or.inl hhy
    · right
      have hmerge : removeChar '-' (removeChar '_' (removeChar '/' (p0 ++ '-' :: p1))) =
          removeChar '-' (removeChar '_' (removeChar '/' u)) := by
        rw [removeAll_eq_filter, removeAll_eq_filter]
        rw [List.filter_append]
        rw [show List.filter
            (fun c => decide (c ≠ '-') && decide (c ≠ '_') && decide (c ≠ '/'))
            ('-' :: p1) = List.filter
            (fun c => decide (c ≠ '-') && decide (c ≠ '_') && decide (c ≠ '/')) p1 by
          rw [List.filter_cons]
          simp]
        exact (filter_eq_two_parts hps _ hPsep).symm
      refine ⟨hhy, ?_, ?_, ?_⟩
      · rw [hmerge]; exact h6n
      · exact sepSplitTry_not_mem (hsepfree '/' (Or.inl rfl))
      · exact sepSplitTry_not_mem (hsepfree '_' (Or.inr rfl))

/-- Counterexample to C9 as stated: on `A-B-C_D/EFG` the normalizer is
not idempotent — the first pass rewrites the slash split to
`A-B-C_D-EFG`, and a second pass then rewrites the underscore split to
`A-B-C-D-EFG`. -/
theorem C9_counterexample :
    DataFetcher.normalize_symbol_for_yfinance
        (DataFetcher.normalize_symbol_for_yfinance "A-B-C_D/EFG".data) ≠
      DataFetcher.normalize_symbol_for_yfinance "A-B-C_D/EFG".data := by
  decide

/-- C9 (amended): symbol normalization is idempotent on every input whose
whitespace characters are all plain spaces and which does not contain
both a slash and an underscore; a second application can differ only when
the separator-splitting branch leaves the other separator (or stray
whitespace) inside its output. -/
theorem C9_amended (symbol : List Char)
    (h1 : ∀ c ∈ symbol, pyIsSpace c = true → c = ' ')
    (h2 : ¬ ('/' ∈ symbol ∧ '_' ∈ symbol)) :
    DataFetcher.normalize_symbol_for_yfinance
        (DataFetcher.normalize_symbol_for_yfinance symbol) =
      DataFetcher.normalize_symbol_for_yfinance symbol := by
  by_cases hx : symbol = []
  · subst hx; decide
  by_cases hstrip : pyStrip symbol = []
  · have h0 : DataFetcher.normalize_symbol_for_yfinance symbol = [] := by
      unfold DataFetcher.normalize_symbol_for_yfinance
      rw [if_neg hx]
      dsimp only
      rw [if_pos hstrip, hstrip]
    rw [h0]
    decide
  have hnsU : ∀ c ∈ DataFetcher.upperForm symbol, pyIsSpace c = false :=
    upperForm_no_space h1
  have hstU : ∀ c ∈ DataFetcher.upperForm symbol, pyUpperChar c = c :=
    upperForm_stable
  by_cases hnat : (startsWithChar '^' (pyStrip symbol) ||
      endsEqX (pyStrip symbol)) = true
  · rw [norm_native hnat]
    rw [norm_native (by rw [pyStrip_idem]; exact hnat)]
    exact pyStrip_idem symbol
  have hnat' : (startsWithChar '^' (pyStrip symbol) ||
      endsEqX (pyStrip symbol)) = false := by simpa using hnat
  by_cases hh2 : ('-' ∈ DataFetcher.upperForm symbol) ∧
      (pySplit '-' (DataFetcher.upperForm symbol)).length = 2
  · rw [norm_hyph2 hx hstrip hnat' hh2]
    exact norm_fix_clean hnsU hstU (Or.inl hh2)
  by_cases hh6 : (DataFetcher.mergedForm symbol).length = 6 ∧
      (DataFetcher.mergedForm symbol).all Char.isAlpha = true
  · rw [norm_six hx hstrip hnat' hh2 hh6]
    have halpha : ∀ c ∈ DataFetcher.mergedForm symbol, c.isAlpha = true := by
      intro c hc
      exact List.all_eq_true.mp hh6.2 c hc
    have hmu := merged_sublist symbol
    split_ifs with hcq
    · -- crypto form BASE-QUOTE
      apply norm_fix_clean
      · intro c hc
        rcases List.mem_append.mp hc with hcb | hcq2
        · exact alpha_not_space (halpha c ((List.take_sublist 3 _).mem hcb))
        · rcases List.mem_cons.mp hcq2 with rfl | hcq3
          · decide
          · exact alpha_not_space (halpha c ((List.drop_sublist 3 _).mem hcq3))
      · intro c hc
        rcases List.mem_append.mp hc with hcb | hcq2
        · exact hstU c (hmu.mem ((List.take_sublist 3 _).mem hcb))
        · rcases List.mem_cons.mp hcq2 with rfl | hcq3
          · rfl
          · exact hstU c (hmu.mem ((List.drop_sublist 3 _).mem hcq3))
      · left
        constructor
        · exact List.mem_append.mpr (Or.inr (List.mem_cons_self _ _))
        · have hb : '-' ∉ (DataFetcher.mergedForm symbol).take 3 := fun hm =>
            alpha_ne_of (halpha _ ((List.take_sublist 3 _).mem hm)) '-'
              (by decide) rfl
          have hq : '-' ∉ (DataFetcher.mergedForm symbol).drop 3 := fun hm =>
            alpha_ne_of (halpha _ ((List.drop_sublist 3 _).mem hm)) '-'
              (by decide) rfl
          rw [pySplit_append_sep '-' hb, pySplit_of_not_mem hq]
          rfl
    · -- FX form BASEQUOTE=X
      have ho : (DataFetcher.mergedForm symbol).take 3 ++
          (DataFetcher.mergedForm symbol).drop 3 ++ ['=', 'X'] =
          DataFetcher.mergedForm symbol ++ ['=', 'X'] := by
        rw [List.take_append_drop]
      rw [ho]
      have hnso : ∀ c ∈ DataFetcher.mergedForm symbol ++ ['=', 'X'],
          pyIsSpace c = false := by
        intro c hc
        rcases List.mem_append.mp hc with hcm | hcx
        · exact alpha_not_space (halpha c hcm)
        · rcases List.mem_cons.mp hcx with rfl | hcx2
          · decide
          · rcases List.mem_cons.mp hcx2 with rfl | hcx3
            · decide
            · exact absurd hcx3 (by simp)
      have hse : pyStrip (DataFetcher.mergedForm symbol ++ ['=', 'X']) =
          DataFetcher.mergedForm symbol ++ ['=', 'X'] :=
        pyStrip_eq_self_of_none hnso
      rw [norm_native (by
        rw [hse]
        exact Bool.or_eq_true _ _ ▸ Or.inr (endsEqX_append _)), hse]
  rw [norm_sep_fallback hx hstrip hnat' hh2 hh6]
  cases hsp1 : DataFetcher.sepSplitTry '/' (DataFetcher.upperForm symbol) with
  | some r =>
    dsimp only
    have hother : ∀ d ∈ DataFetcher.upperForm symbol,
        d = '/' ∨ d = '_' → d = '/' := by
      intro d hd hcase
      rcases hcase with rfl | rfl
      · rfl
      · exact absurd ⟨slash_mem_symbol (sepSplitTry_some hsp1).1,
          underscore_mem_symbol hd⟩ h2
    exact norm_fix_sep hnsU hstU
      (by unfold DataFetcher.mergedForm at hh6; exact hh6) (by decide)
      hother hsp1
  | none =>
    dsimp only
    cases hsp2 : DataFetcher.sepSplitTry '_' (DataFetcher.upperForm symbol) with
    | some r =>
      dsimp only
      have hother : ∀ d ∈ DataFetcher.upperForm symbol,
          d = '/' ∨ d = '_' → d = '_' := by
        intro d hd hcase
        rcases hcase with rfl | rfl
        · exact absurd ⟨slash_mem_symbol hd,
            underscore_mem_symbol (sepSplitTry_some hsp2).1⟩ h2
        · rfl
      exact norm_fix_sep hnsU hstU
        (by unfold DataFetcher.mergedForm at hh6; exact hh6) (by decide)
        hother hsp2
    | none =>
      dsimp only
      exact norm_fix_clean hnsU hstU
        (Or.inr ⟨hh2, by unfold DataFetcher.mergedForm at hh6; exact hh6,
          hsp1, hsp2⟩)

/-- Witness for the amended C9: a slash-separated crypto pair with inner
spaces (no underscore, no exotic whitespace) normalizes to the same
ticker twice. -/
theorem C9_amended_witness :
    DataFetcher.normalize_symbol_for_yfinance
        (DataFetcher.normalize_symbol_for_yfinance " btc / usdt ".data) =
      DataFetcher.normalize_symbol_for_yfinance " btc / usdt ".data :=
  C9_amended " btc / usdt ".data (by decide) (by decide)

/-- C6: symbols whose stripped form is Yahoo-native (leading `^` or
trailing `=X`) are returned as-is (stripped); otherwise, a symbol that is
not already a two-piece hyphenation and whose uppercased, space- and
separator-free form is exactly six letters becomes `BASE-QUOTE` when the
first three letters are a known crypto base or the last three are in the
crypto quote set, and `BASEQUOTE=X` otherwise. -/
theorem C6_symbol_normalization (symbol : List Char) :
    ((startsWithChar '^' (pyStrip symbol) = true ∨
        endsEqX (pyStrip symbol) = true) →
      DataFetcher.normalize_symbol_for_yfinance symbol = pyStrip symbol) ∧
    (startsWithChar '^' (pyStrip symbol) = false →
     endsEqX (pyStrip symbol) = false →
     ¬ (('-' ∈ DataFetcher.upperForm symbol) ∧
        (pySplit '-' (DataFetcher.upperForm symbol)).length = 2) →
     (DataFetcher.mergedForm symbol).length = 6 →
     (DataFetcher.mergedForm symbol).all Char.isAlpha = true →
     DataFetcher.normalize_symbol_for_yfinance symbol =
       (if (DataFetcher.mergedForm symbol).take 3 ∈ DataFetcher.crypto_bases ∨
           (DataFetcher.mergedForm symbol).drop 3 ∈ DataFetcher.cryptoQuotes
        then (DataFetcher.mergedForm symbol).take 3 ++
          '-' :: (DataFetcher.mergedForm symbol).drop 3
        else (DataFetcher.mergedForm symbol).take 3 ++
          (DataFetcher.mergedForm symbol).drop 3 ++ ['=', 'X'])) := by
  constructor
  · intro h
    apply norm_native
    rcases h with h | h
    · rw [h]; rfl
    · rw [h]; simp
  · intro hsC hsE hnh h6l h6a
    have hstrip : pyStrip symbol ≠ [] := by
      intro he
      have hm : DataFetcher.mergedForm symbol = [] := by
        unfold DataFetcher.mergedForm DataFetcher.upperForm
        rw [he]
        rfl
      rw [hm] at h6l
      exact absurd h6l (by decide)
    have hx : symbol ≠ [] := by
      intro he
      exact hstrip (by rw [he]; rfl)
    have hnat' : (startsWithChar '^' (pyStrip symbol) ||
        endsEqX (pyStrip symbol)) = false := by
      rw [hsC, hsE]
      rfl
    exact norm_six hx hstrip hnat' hnh ⟨h6l, h6a⟩

/-- Witness for C6: `" ^gspc "` is native and comes back stripped;
`"btc/usd"` merges to the six letters `BTCUSD` with crypto base `BTC`. -/
theorem C6_symbol_normalization_witness :
    DataFetcher.normalize_symbol_for_yfinance " ^gspc ".data =
      pyStrip " ^gspc ".data ∧
    DataFetcher.normalize_symbol_for_yfinance "btc/usd".data =
      (if (DataFetcher.mergedForm "btc/usd".data).take 3 ∈ DataFetcher.crypto_bases ∨
          (DataFetcher.mergedForm "btc/usd".data).drop 3 ∈ DataFetcher.cryptoQuotes
       then (DataFetcher.mergedForm "btc/usd".data).take 3 ++
         '-' :: (DataFetcher.mergedForm "btc/usd".data).drop 3
       else (DataFetcher.mergedForm "btc/usd".data).take 3 ++
         (DataFetcher.mergedForm "btc/usd".data).drop 3 ++ ['=', 'X']) :=
  ⟨(C6_symbol_normalization " ^gspc ".data).1 (Or.inl (by decide)),
   (C6_symbol_normalization "btc/usd".data).2 (by decide) (by decide)
     (by decide) (by decide) (by decide)⟩
